import Mathlib

/-!
# Supersonic `ui/widgets/gridview.go`: the incremental grid-view loader

A shallow embedding of the paginated loader behind `GridView`:

* the album iterators (`BatchingIterator`, `gridViewAlbumIterator`),
* the store (`GridViewState`, `GridView`) with its reset operations,
* the fetch goroutine started by `checkFetchMoreItems`, as a small-step
  machine whose steps interleave with the calls made on the UI thread,
* `doUpdateItemCard`, the row-materialisation callback.

Go `int` values are `Int`; slices are `List`; a `nil` interface or pointer is
`none`; a run-time panic is the result `none` of an `Option`-valued operation.
-/

namespace Supersonic

/-! ## Records -/

/-- The fields of `mediaprovider.Album` that `gridview.go` reads. -/
structure Album where
  Name : String
  ID : String
  CoverArtID : String
  ArtistNames : List String
  ArtistIDs : List String
deriving DecidableEq, Repr

/-- The fields of `GridViewItemModel` that `gridview.go` writes
(`gridViewAlbumIterator.NextN`). -/
structure GridViewItemModel where
  Name : String
  ID : String
  CoverArtID : String
  Secondary : List String
  SecondaryIDs : List String
deriving DecidableEq, Repr

/-- The Go zero value `var item GridViewItemModel`. -/
def GridViewItemModel.zero : GridViewItemModel :=
  { Name := "", ID := "", CoverArtID := "", Secondary := [], SecondaryIDs := [] }

/-- `const batchFetchSize = 6`. -/
def batchFetchSize : Int := 6

/-! ## Album iterators -/

/-- The interface `mediaprovider.AlbumIterator`: a stateful object whose
`Next()` takes no argument and returns an album pointer or `nil`. Its behaviour
is the sequence of pointers its successive calls return over its lifetime,
together with the number of calls already made. -/
structure AlbumIterator where
  albums : Nat → Option Album
  calls : Nat

/-- `iter.Next()`: the returned pointer and the iterator afterwards. -/
def AlbumIterator.Next (it : AlbumIterator) : Option Album × AlbumIterator :=
  (it.albums it.calls, { it with calls := it.calls + 1 })

/-- The pointer returned by the `j`-th coming call of `Next()` (counted from 0). -/
def AlbumIterator.yield (it : AlbumIterator) (j : Nat) : Option Album :=
  it.albums (it.calls + j)

/-- `type BatchingIterator struct { iter mediaprovider.AlbumIterator }`. -/
structure BatchingIterator where
  iter : AlbumIterator

/-- `NewBatchingIterator`. -/
def NewBatchingIterator (iter : AlbumIterator) : BatchingIterator := ⟨iter⟩

/-- The `for i < n` loop of `BatchingIterator.NextN`; the first argument is
`n - i`, the number of iterations still allowed. -/
def BatchingIterator.nextNLoop : Nat → AlbumIterator → List Album → List Album × AlbumIterator
  | 0, it, results => (results, it)
  | k + 1, it, results =>
    match it.Next with
    | (none, it') => (results, it')
    | (some album, it') => BatchingIterator.nextNLoop k it' (results ++ [album])

/-- `BatchingIterator.NextN(n)`. The first statement, `make([]*Album, 0, n)`,
panics (`none`) for a negative `n` and for an `n` above `capLimit`, the largest
capacity of a slice of album pointers the runtime will allocate (`makeslice:
cap out of range`); `capLimit` is a constant of the Go runtime and platform,
taken as a parameter. -/
def BatchingIterator.NextN (b : BatchingIterator) (capLimit : Nat) (n : Int) :
    Option (List Album × BatchingIterator) :=
  if n < 0 ∨ (capLimit : Int) < n then none
  else
    let r := BatchingIterator.nextNLoop n.toNat b.iter []
    some (r.1, ⟨r.2⟩)

/-- Modelled from the spec: `sharedutil.MapSlice` is not among the sources; it
converts a slice of domain records one-to-one, in order, into item models. -/
def MapSlice {α β : Type} (xs : List α) (f : α → β) : List β := xs.map f

/-- The closure passed to `MapSlice` in `gridViewAlbumIterator.NextN`. -/
def albumToItemModel (al : Album) : GridViewItemModel :=
  { Name := al.Name, ID := al.ID, CoverArtID := al.CoverArtID,
    Secondary := al.ArtistNames, SecondaryIDs := al.ArtistIDs }

/-- `type gridViewAlbumIterator struct { iter BatchingIterator }`. -/
structure gridViewAlbumIterator where
  iter : BatchingIterator

/-- `gridViewAlbumIterator.NextN(n)`. -/
def gridViewAlbumIterator.NextN (g : gridViewAlbumIterator) (capLimit : Nat) (n : Int) :
    Option (List GridViewItemModel × gridViewAlbumIterator) :=
  match g.iter.NextN capLimit n with
  | none => none
  | some (albums, b) => some (MapSlice albums albumToItemModel, ⟨b⟩)

/-- The interface `GridViewIterator { NextN(int) []GridViewItemModel }`: a
stateful object; `nextN` gives the returned slice and the next state, or
`none` when the call panics. -/
structure GridViewIterator where
  State : Type
  st : State
  nextN : State → Int → Option (List GridViewItemModel × State)

/-- A call `iter.NextN(n)` through the interface. -/
def GridViewIterator.NextN (it : GridViewIterator) (n : Int) :
    Option (List GridViewItemModel × GridViewIterator) :=
  match it.nextN it.st n with
  | none => none
  | some r => some (r.1, { it with st := r.2 })

/-- `NewGridViewAlbumIterator`, in a runtime whose slice capacity limit is
`capLimit`. -/
def NewGridViewAlbumIterator (capLimit : Nat) (iter : AlbumIterator) : GridViewIterator :=
  { State := gridViewAlbumIterator
    st := ⟨NewBatchingIterator iter⟩
    nextN := fun g n => g.NextN capLimit n }

/-! ## The store -/

/-- `type GridViewState struct`: the fields the loader reads and writes. The
image fetcher, placeholder resource, callbacks and scroll position play no part
in loading and are left out. -/
structure GridViewState where
  items : List GridViewItemModel
  iter : Option GridViewIterator
  highestShown : Int
  done : Bool

/-- Program points of the goroutine started by `checkFetchMoreItems`; `n` and
`items` are its local variables. -/
inductive FetchPC where
  /-- about to evaluate `!g.done && g.highestShown >= g.lenItems()-10` -/
  | outerCheck
  /-- about to evaluate `!g.done && n < count` -/
  | innerCheck (n : Int)
  /-- about to call `g.iter.NextN(batchFetchSize)` -/
  | callNextN (n : Int)
  /-- holding the pulled batch, about to run the `select` on `ctx.Done()` -/
  | selectCtx (n : Int) (items : List GridViewItemModel)
  /-- took the `default` branch, about to lock and append -/
  | appendItems (n : Int) (items : List GridViewItemModel)
  /-- appended and unlocked, about to run the short-batch test and `n += len(items)` -/
  | afterAppend (n : Int) (items : List GridViewItemModel)
  /-- left both loops, about to lock and call `g.cancelFetch()` -/
  | finish
  /-- the goroutine has returned -/
  | exited
deriving DecidableEq

/-- One fetch goroutine: the `count` it captured, whether its context has been
cancelled (`ctx.Done()` is closed), and its program point. -/
structure FetchLoop where
  count : Int
  ctxDone : Bool
  pc : FetchPC
deriving DecidableEq

/-- `type GridView struct`: the embedded `GridViewState` and `fetchCancel`.
`fetchCancel` is `some i` when it holds the cancel function of the context of
goroutine `i`. `fetches` is the table of goroutines started so far, `nextFetch`
the number of them, and `nextNLog` records, in call order, the slice returned by
every `NextN` call a fetch goroutine has made. -/
structure GridView extends GridViewState where
  fetchCancel : Option Nat
  fetches : Nat → Option FetchLoop
  nextFetch : Nat
  nextNLog : List (List GridViewItemModel)

/-- `g.lenItems()`. -/
def GridView.lenItems (g : GridView) : Int := g.items.length

/-- Replace the record of goroutine `i`. -/
def GridView.setFetch (g : GridView) (i : Nat) (l : FetchLoop) : GridView :=
  { g with fetches := fun j => if j = i then some l else g.fetches j }

/-- `g.cancelFetch()`: when `fetchCancel` is non-nil, call it (closing the
context it belongs to) and set it to nil. -/
def GridView.cancelFetch (g : GridView) : GridView :=
  match g.fetchCancel with
  | none => g
  | some i =>
    { g with
      fetches := fun j =>
        if j = i then (g.fetches j).map (fun l => { l with ctxDone := true }) else g.fetches j
      fetchCancel := none }

/-- `g.checkFetchMoreItems(count)` up to the `go` statement: the goroutine is
entered in the table at its first program point. -/
def GridView.checkFetchMoreItems (g : GridView) (count : Int) : GridView :=
  if g.done || g.fetchCancel.isSome then g
  else
    match g.iter with
    | none => { g with done := true }
    | some _ =>
      { g with
        fetchCancel := some g.nextFetch
        fetches := fun j =>
          if j = g.nextFetch then some ⟨count, false, FetchPC.outerCheck⟩ else g.fetches j
        nextFetch := g.nextFetch + 1 }

/-- One step of goroutine `i`: the body of the `go func()` in
`checkFetchMoreItems`, one statement at a time. The result is `none` when the
step panics (a call on a nil `g.iter`, or a panicking `NextN`). -/
def GridView.fetchStep (g : GridView) (i : Nat) : Option GridView :=
  match g.fetches i with
  | none => some g
  | some l =>
    match l.pc with
    | FetchPC.outerCheck =>
      if !g.done && decide (g.highestShown ≥ g.lenItems - 10) then
        some (g.setFetch i { l with pc := FetchPC.innerCheck 0 })
      else some (g.setFetch i { l with pc := FetchPC.finish })
    | FetchPC.innerCheck n =>
      if !g.done && decide (n < l.count) then
        some (g.setFetch i { l with pc := FetchPC.callNextN n })
      else some (g.setFetch i { l with pc := FetchPC.outerCheck })
    | FetchPC.callNextN n =>
      match g.iter with
      | none => none
      | some it =>
        match it.NextN batchFetchSize with
        | none => none
        | some (items, it') =>
          some ({ g with iter := some it', nextNLog := g.nextNLog ++ [items] }.setFetch i
            { l with pc := FetchPC.selectCtx n items })
    | FetchPC.selectCtx n items =>
      if l.ctxDone then some (g.setFetch i { l with pc := FetchPC.exited })
      else some (g.setFetch i { l with pc := FetchPC.appendItems n items })
    | FetchPC.appendItems n items =>
      some ({ g with items := g.items ++ items }.setFetch i
        { l with pc := FetchPC.afterAppend n items })
    | FetchPC.afterAppend n items =>
      let g1 : GridView := if (items.length : Int) < batchFetchSize then { g with done := true } else g
      some (g1.setFetch i { l with pc := FetchPC.innerCheck (n + items.length) })
    | FetchPC.finish =>
      let g1 := g.cancelFetch
      match g1.fetches i with
      | none => some g1
      | some l1 => some (g1.setFetch i { l1 with pc := FetchPC.exited })
    | FetchPC.exited => some g

/-! ## Construction and reset -/

/-- `newGridView()` with a given `GridViewState`: no cancel function, no
goroutine. -/
def newGridView (st : GridViewState) : GridView :=
  { toGridViewState := st, fetchCancel := none, fetches := fun _ => none,
    nextFetch := 0, nextNLog := [] }

/-- `NewFixedGridView(items, ...)`. -/
def NewFixedGridView (items : List GridViewItemModel) : GridView :=
  newGridView { items := items, iter := none, highestShown := 0, done := true }

/-- The store `NewGridView(iter, ...)` builds before its initial fetch: the
iterator, no items, `done` false, `highestShown = 0`, no cancel function. -/
def streamingStore (iter : Option GridViewIterator) : GridView :=
  newGridView { items := [], iter := iter, highestShown := 0, done := false }

/-- `NewGridView(iter, ...)`: the initial state, then `checkFetchMoreItems(36)`. -/
def NewGridView (iter : Option GridViewIterator) : GridView :=
  (streamingStore iter).checkFetchMoreItems 36

/-- `g.Clear()`: the lock is released by `defer`, nothing follows the critical
section. -/
def GridView.Clear (g : GridView) : GridView :=
  { g.cancelFetch with items := [], done := true }

/-- The critical section of `g.Reset(iter)` (from `Lock` to `Unlock`). -/
def GridView.resetLocked (g : GridView) (iter : Option GridViewIterator) : GridView :=
  { g.cancelFetch with items := [], done := false, highestShown := 0, iter := iter }

/-- The critical section of `g.ResetFromState(state)` (from `Lock` to `Unlock`). -/
def GridView.resetFromStateLocked (g : GridView) (state : GridViewState) : GridView :=
  { g.cancelFetch with toGridViewState := state }

/-- The critical section of `g.ResetFixed(items)` (from `Lock` to `Unlock`). -/
def GridView.resetFixedLocked (g : GridView) (items : List GridViewItemModel) : GridView :=
  { g.cancelFetch with items := items, done := true, highestShown := 0, iter := none }

/-! ## Row materialisation -/

/-- A grid card as `doUpdateItemCard` sees it: its `ItemIndex` and the item
model it currently displays. -/
structure GridViewItem where
  ItemIndex : Int
  shown : GridViewItemModel
deriving DecidableEq

/-- Modelled from the spec: `GridViewItem.NeedsUpdate` is not among the
sources; item models are compared by value to decide whether a row needs
re-binding. -/
def GridViewItem.NeedsUpdate (card : GridViewItem) (item : GridViewItemModel) : Bool :=
  decide (card.shown ≠ item)

/-- Modelled from the spec: `GridViewItem.Update` is not among the sources; it
binds the card to the given item model. -/
def GridViewItem.Update (card : GridViewItem) (item : GridViewItemModel) : GridViewItem :=
  { card with shown := item }

/-- The first statement of `doUpdateItemCard`: raise `highestShown` to `itemIdx`. -/
def GridView.noteShown (g : GridView) (itemIdx : Int) : GridView :=
  if itemIdx > g.highestShown then { g with highestShown := itemIdx } else g

/-- The guarded read of `doUpdateItemCard`: `item` is the zero value unless
`itemIdx < len(g.items)`, in which case it is `g.items[itemIdx]`. A negative
index passes the guard and the slice access panics (`none`). -/
def GridView.itemAt (g : GridView) (itemIdx : Int) : Option GridViewItemModel :=
  if itemIdx < g.items.length then
    (if itemIdx < 0 then none else g.items[itemIdx.toNat]?)
  else some GridViewItemModel.zero

/-- The last statement of `doUpdateItemCard`: when `itemIdx > g.lenItems()-10`,
call `g.checkFetchMoreItems(20)`. -/
def GridView.fetchIfNearEnd (g : GridView) (itemIdx : Int) : GridView :=
  if itemIdx > g.lenItems - 10 then g.checkFetchMoreItems 20 else g

/-- `g.doUpdateItemCard(itemIdx, card)` run without interruption: the store and
the card afterwards, or `none` when it panics. The `itemForIndex` map, the
centre icon and the image loader do not touch the store and are left out. -/
def GridView.doUpdateItemCard (g : GridView) (itemIdx : Int) (card : GridViewItem) :
    Option (GridView × GridViewItem) :=
  let g1 := g.noteShown itemIdx
  match g1.itemAt itemIdx with
  | none => none
  | some item =>
    if !card.NeedsUpdate item && card.ItemIndex == itemIdx then
      some (g1, card)
    else
      let card1 : GridViewItem := { card with ItemIndex := itemIdx }
      some (g1.fetchIfNearEnd itemIdx, card1.Update item)

/-! ## Refresh, and the operations that end with one -/

/-- Modelled from the spec: the widget toolkit is not among the sources. A
refresh of the grid (`g.Refresh()`, `g.grid.Refresh()`, `ScrollToOffset`)
re-triggers the row-update callback `doUpdateItemCard` for the rows the toolkit
shows; `rows` lists those calls, index and card, in the order the toolkit makes
them. The result is `none` when one of them panics. -/
def GridView.Refresh (g : GridView) : List (Int × GridViewItem) → Option GridView
  | [] => some g
  | (itemIdx, card) :: rows =>
    match g.doUpdateItemCard itemIdx card with
    | none => none
    | some (g1, _) => g1.Refresh rows

/-- `NewGridViewFromState(state)`: the store is `state`, then `g.Refresh()` and
`ScrollToOffset`, whose row updates are `rows`. -/
def NewGridViewFromState (state : GridViewState) (rows : List (Int × GridViewItem)) :
    Option GridView :=
  (newGridView state).Refresh rows

/-- `g.Reset(iter)` on the UI thread: the critical section, then
`g.checkFetchMoreItems(36)`, then `g.Refresh()` with row updates `rows`. -/
def GridView.Reset (g : GridView) (iter : Option GridViewIterator)
    (rows : List (Int × GridViewItem)) : Option GridView :=
  ((g.resetLocked iter).checkFetchMoreItems 36).Refresh rows

/-- `g.ResetFromState(state)` on the UI thread: the critical section, then
`g.grid.Refresh()`, `ScrollToOffset` and `g.grid.Refresh()`, whose row updates
are `rows`. -/
def GridView.ResetFromState (g : GridView) (state : GridViewState)
    (rows : List (Int × GridViewItem)) : Option GridView :=
  (g.resetFromStateLocked state).Refresh rows

/-- `g.ResetFixed(items)` on the UI thread: the critical section, then
`g.Refresh()` with row updates `rows`. -/
def GridView.ResetFixed (g : GridView) (items : List GridViewItemModel)
    (rows : List (Int × GridViewItem)) : Option GridView :=
  (g.resetFixedLocked items).Refresh rows

/-! ## Interleaved executions -/

/-- The atomic actions of an execution: a step of one fetch goroutine, or one
of the store accesses made on the UI thread. `doUpdateItemCard` contributes
its first statement (`showRow`) and its last (`nearEnd`), between which
goroutines may run. `Reset`, `ResetFromState` and `ResetFixed` contribute their
critical sections; the `checkFetchMoreItems 36` of `Reset` and the row updates
of the refresh that ends them are further actions, between which goroutines
may run as well. -/
inductive Action where
  | fetchStep (i : Nat)
  | showRow (itemIdx : Int)
  | nearEnd (itemIdx : Int)
  | checkFetchMoreItems (count : Int)
  | Clear
  | resetLocked (iter : Option GridViewIterator)
  | resetFromStateLocked (state : GridViewState)
  | resetFixedLocked (items : List GridViewItemModel)

/-- Whether the action is (the critical section of) a reset operation. -/
def Action.isReset : Action → Bool
  | Action.Clear => true
  | Action.resetLocked _ => true
  | Action.resetFromStateLocked _ => true
  | Action.resetFixedLocked _ => true
  | _ => false

/-- The effect of one action; `none` when it panics. -/
def GridView.step (g : GridView) : Action → Option GridView
  | Action.fetchStep i => g.fetchStep i
  | Action.showRow itemIdx => some (g.noteShown itemIdx)
  | Action.nearEnd itemIdx => some (g.fetchIfNearEnd itemIdx)
  | Action.checkFetchMoreItems count => some (g.checkFetchMoreItems count)
  | Action.Clear => some g.Clear
  | Action.resetLocked iter => some (g.resetLocked iter)
  | Action.resetFromStateLocked state => some (g.resetFromStateLocked state)
  | Action.resetFixedLocked items => some (g.resetFixedLocked items)

/-- Run a schedule of actions from left to right. -/
def GridView.exec (g : GridView) : List Action → Option GridView
  | [] => some g
  | a :: as =>
    match g.step a with
    | none => none
    | some g1 => g1.exec as

/-- Goroutine `i` running alone for `k` steps. -/
def GridView.runFetch (g : GridView) (i : Nat) (k : Nat) : Option GridView :=
  g.exec (List.replicate k (Action.fetchStep i))

/-- The store states a program can reach: those of a freshly constructed view
(for `NewGridViewFromState`, the store before its refresh, whose row updates are
actions), closed under every action. -/
inductive Reachable : GridView → Prop where
  | fixed (items : List GridViewItemModel) : Reachable (NewFixedGridView items)
  | stream (iter : Option GridViewIterator) : Reachable (NewGridView iter)
  | fromState (state : GridViewState) : Reachable (newGridView state)
  | step {g g1 : GridView} (a : Action) : Reachable g → g.step a = some g1 → Reachable g1

/-! ## Test iterators -/

/-- An iterator over a finite stream: `NextN(n)` hands out the next `n`
records, fewer when the stream runs out. -/
def sliceIterator (xs : List GridViewItemModel) : GridViewIterator :=
  { State := List GridViewItemModel
    st := xs
    nextN := fun st n => if n < 0 then none else some (st.take n.toNat, st.drop n.toNat) }

/-- The iterator hands out exactly the records of `xs`, in order: there are a
set `reach` of iterator states, containing the present one and closed under
`NextN(batchFetchSize)`, and a reading `rest` of a state as the records still
to come, `xs` at present, such that from every state in `reach` the call
`NextN(batchFetchSize)` returns the next `batchFetchSize` records (all of them
when fewer remain). -/
def GridViewIterator.Streams (it : GridViewIterator) (xs : List GridViewItemModel) : Prop :=
  ∃ (reach : it.State → Prop) (rest : it.State → List GridViewItemModel),
    reach it.st ∧ rest it.st = xs ∧
    ∀ st, reach st →
      ∃ st1, it.nextN st batchFetchSize = some ((rest st).take 6, st1) ∧
        reach st1 ∧ rest st1 = (rest st).drop 6

/-- An album iterator over a finite list: `Next()` yields its albums in order
and nil from then on. -/
def listAlbumIterator (albums : List Album) : AlbumIterator :=
  { albums := fun k => albums[k]?, calls := 0 }

/-- A record named `name`, for examples. -/
def mkItem (name : String) : GridViewItemModel :=
  { Name := name, ID := name, CoverArtID := "", Secondary := [], SecondaryIDs := [] }

/-- The records named by `names`, for examples. -/
def mkItems (names : List String) : List GridViewItemModel := names.map mkItem

/-- A stream of 21 records, for examples. -/
def sample21 : List GridViewItemModel :=
  mkItems ["r00", "r01", "r02", "r03", "r04", "r05", "r06", "r07", "r08", "r09", "r10",
    "r11", "r12", "r13", "r14", "r15", "r16", "r17", "r18", "r19", "r20"]

/-! ## Predicates on the table of goroutines -/

/-- A fetch loop that counts as active: its goroutine has not returned and its
context has not been cancelled. -/
def FetchLoop.active (l : FetchLoop) : Bool :=
  decide (l.pc ≠ FetchPC.exited) && !l.ctxDone

/-- Goroutine `i` has been started and is an active fetch loop. -/
def GridView.activeFetch (g : GridView) (i : Nat) : Bool :=
  match g.fetches i with
  | some l => l.active
  | none => false

/-- The link between `fetchCancel` and the goroutines: goroutine `i` is an
active fetch loop exactly when `fetchCancel` holds its cancel function, and no
goroutine numbered `nextFetch` or more has been started. -/
def GridView.FetchInv (g : GridView) : Prop :=
  (∀ i, g.activeFetch i = true ↔ g.fetchCancel = some i) ∧
  (∀ i, g.nextFetch ≤ i → g.fetches i = none)

/-- A store with no fetch left over from an earlier generation: every
goroutine that has not returned is the one `fetchCancel` refers to, and its
context is open. -/
def GridView.Settled (g : GridView) : Prop :=
  ∀ i l, g.fetches i = some l → l.pc ≠ FetchPC.exited →
    g.fetchCancel = some i ∧ l.ctxDone = false

/-- The batch a fetch loop has pulled and not yet appended, if it holds one. -/
def FetchPC.held : FetchPC → List GridViewItemModel
  | FetchPC.selectCtx _ items => items
  | FetchPC.appendItems _ items => items
  | _ => []

/-- The batch in flight in the fetch that `fetchCancel` refers to. -/
def GridView.pending (g : GridView) : List GridViewItemModel :=
  match g.fetchCancel with
  | none => []
  | some i =>
    match g.fetches i with
    | none => []
    | some l => l.pc.held

/-- Between `g` and `g1` the fetch goroutines made the `NextN` calls that
returned `new`, in that order, and every record they returned is accounted for:
`items` followed by the batch in flight is what it was, followed by the
batches of `new`. -/
def GridView.AppendsPulled (g g1 : GridView) (new : List (List GridViewItemModel)) : Prop :=
  g1.nextNLog = g.nextNLog ++ new ∧
  g1.items ++ g1.pending = g.items ++ g.pending ++ new.flatten

/-- The program point holds a batch shorter than `batchFetchSize` whose
short-batch test is still to come. -/
def FetchPC.shortBatch : FetchPC → Bool
  | FetchPC.selectCtx _ items => decide ((items.length : Int) < batchFetchSize)
  | FetchPC.appendItems _ items => decide ((items.length : Int) < batchFetchSize)
  | FetchPC.afterAppend _ items => decide ((items.length : Int) < batchFetchSize)
  | _ => false

/-- The program point lies between the successful inner test and the
short-batch test: a `NextN` call is due or its batch is being handled. -/
def FetchPC.pulling : FetchPC → Bool
  | FetchPC.callNextN _ => true
  | FetchPC.selectCtx _ _ => true
  | FetchPC.appendItems _ _ => true
  | FetchPC.afterAppend _ _ => true
  | _ => false

/-- The iterator has signalled exhaustion to goroutine `i`: either `done` is set
and no goroutine is between its inner test and its short-batch test, or
goroutine `i`, the active fetch, holds a short batch on its way to setting
`done` and every other goroutine has returned. -/
def GridView.Exhausting (g : GridView) (i : Nat) : Prop :=
  (g.done = true ∧ ∀ j l, g.fetches j = some l → l.pc.pulling = false) ∨
  (g.fetchCancel = some i ∧
    (∃ l, g.fetches i = some l ∧ l.pc.shortBatch = true ∧ l.ctxDone = false) ∧
    ∀ j l, j ≠ i → g.fetches j = some l → l.pc = FetchPC.exited)

/-- Every batch a goroutine holds for its `select` or its append is in the log
of `NextN` results: it was pulled from an iterator. -/
def GridView.HeldLogged (g : GridView) : Prop :=
  ∀ i l n batch, g.fetches i = some l →
    (l.pc = FetchPC.selectCtx n batch ∨ l.pc = FetchPC.appendItems n batch) →
    batch ∈ g.nextNLog

/-- The initial fetch of `NewGridView` on the 21-record stream at the moment it
is about to make its fourth `NextN` call: 18 records appended, 3 to come. -/
def fourthPullView : GridView :=
  { items := sample21.take 18
    iter := some (sliceIterator (sample21.drop 18))
    highestShown := 0
    done := false
    fetchCancel := some 0
    fetches := fun j => if j = 0 then some ⟨36, false, FetchPC.callNextN 18⟩ else none
    nextFetch := 1
    nextNLog := [sample21.take 6, (sample21.drop 6).take 6, (sample21.drop 12).take 6] }

/-- The iterator never panics on a `NextN(batchFetchSize)` call, whatever its
state. -/
def GridViewIterator.Total (it : GridViewIterator) : Prop :=
  ∀ st, ∃ r, it.nextN st batchFetchSize = some r

/-! ## Column geometry -/

/-- The fields of `type GridView struct` that `Resize` and `numCols` touch: the
widget width (`g.Size().Width`), `itemWidth` and `numColsCached`. A `float32`
value is read as the rational it denotes. -/
structure GridViewLayout where
  width : ℚ
  itemWidth : ℚ
  numColsCached : Int

/-- The layout fields after `newGridView()`: `itemWidth` is the minimum width of
a card (a parameter, `NewGridViewItem` is not among the sources); the struct
literal sets neither the size nor `numColsCached`, which are their zero values. -/
def newGridViewLayout (itemWidth : ℚ) : GridViewLayout :=
  { width := 0, itemWidth := itemWidth, numColsCached := 0 }

/-- `g.Resize(size)`: invalidate the cache, then `BaseWidget.Resize`. -/
def GridViewLayout.Resize (g : GridViewLayout) (width : ℚ) : GridViewLayout :=
  { g with numColsCached := -1, width := width }

/-- `g.numCols()` under theme padding `pad`: the returned count and the layout
fields afterwards (the cache may have been filled). `floatCols width pad
itemWidth` stands for the Go expression
`int(math.Floor(float64(width+pad) / float64(g.itemWidth+pad)))`; its float32
addition, float64 division and conversion to `int` are not modelled, the
function is a parameter. -/
def GridViewLayout.numCols (g : GridViewLayout) (pad : ℚ) (floatCols : ℚ → ℚ → ℚ → Int) :
    Int × GridViewLayout :=
  if g.numColsCached = -1 then
    let colCount : Int :=
      if g.width > g.itemWidth then floatCols g.width pad g.itemWidth else 1
    (colCount, { g with numColsCached := colCount })
  else (g.numColsCached, g)

end Supersonic

namespace Supersonic

/-! ## `BatchingIterator.NextN` -/

theorem AlbumIterator.yield_next (it : AlbumIterator) (j : Nat) :
    it.Next.2.yield j = it.yield (j + 1) := by
  simp [AlbumIterator.yield, AlbumIterator.Next, Nat.add_assoc, Nat.add_comm 1 j]

theorem filterMap_range_succ_of_some {α : Type} (f : Nat → Option α) (a : α) (m : Nat)
    (h : f 0 = some a) :
    (List.range (m + 1)).filterMap f = a :: (List.range m).filterMap (fun j => f (j + 1)) := by
  rw [List.range_succ_eq_map, List.filterMap_cons_some h, List.filterMap_map]
  rfl

/-- What the loop of `NextN` does with `k` iterations left: it appends the next
`m` yields, all non-nil, stops early only on a nil yield, and has then made
`m + 1` calls of `Next()` (else `m = k` calls). -/
theorem BatchingIterator.nextNLoop_spec (k : Nat) :
    ∀ (it : AlbumIterator) (results : List Album),
      ∃ m, m ≤ k ∧
        (BatchingIterator.nextNLoop k it results).1 =
          results ++ (List.range m).filterMap it.yield ∧
        (∀ j, j < m → (it.yield j).isSome = true) ∧
        (m < k → it.yield m = none) ∧
        (BatchingIterator.nextNLoop k it results).2.albums = it.albums ∧
        (BatchingIterator.nextNLoop k it results).2.calls =
          it.calls + (if m < k then m + 1 else m) := by
  induction k with
  | zero =>
    intro it results
    exact ⟨0, le_refl 0, by simp [BatchingIterator.nextNLoop], by simp, by simp,
      by simp [BatchingIterator.nextNLoop], by simp [BatchingIterator.nextNLoop]⟩
  | succ k ih =>
    intro it results
    cases hy : it.albums it.calls with
    | none =>
      refine ⟨0, Nat.zero_le _, ?_, by simp, ?_, ?_, ?_⟩
      · simp [BatchingIterator.nextNLoop, AlbumIterator.Next, hy]
      · intro _; simpa [AlbumIterator.yield] using hy
      · simp [BatchingIterator.nextNLoop, AlbumIterator.Next, hy]
      · simp [BatchingIterator.nextNLoop, AlbumIterator.Next, hy]
    | some a =>
      obtain ⟨m, hmk, hres, hsome, hstop, halb, hcalls⟩ := ih it.Next.2 (results ++ [a])
      have hloop : BatchingIterator.nextNLoop (k + 1) it results =
          BatchingIterator.nextNLoop k it.Next.2 (results ++ [a]) := by
        simp [BatchingIterator.nextNLoop, AlbumIterator.Next, hy]
      have hy0 : it.yield 0 = some a := by simpa [AlbumIterator.yield] using hy
      have hfun : (fun j => it.yield (j + 1)) = it.Next.2.yield := by
        funext j; exact (AlbumIterator.yield_next it j).symm
      refine ⟨m + 1, Nat.succ_le_succ hmk, ?_, ?_, ?_, ?_, ?_⟩
      · rw [hloop, hres, filterMap_range_succ_of_some it.yield a m hy0, hfun]
        simp
      · intro j hj
        cases j with
        | zero => simp [hy0]
        | succ j =>
          rw [← AlbumIterator.yield_next]
          exact hsome j (Nat.lt_of_succ_lt_succ hj)
      · intro hlt
        rw [← AlbumIterator.yield_next]
        exact hstop (Nat.lt_of_succ_lt_succ hlt)
      · rw [hloop, halb]; rfl
      · rw [hloop, hcalls]
        simp only [AlbumIterator.Next]
        by_cases hlt : m < k
        · simp [hlt]; omega
        · simp [hlt]; omega

theorem map_some_filterMap_of_isSome {α β : Type} (f : α → Option β) :
    ∀ l : List α, (∀ x, x ∈ l → (f x).isSome = true) →
      (l.filterMap f).map some = l.map f ∧ (l.filterMap f).length = l.length := by
  intro l
  induction l with
  | nil => intro _; simp
  | cons x xs ih =>
    intro h
    have hx := h x (List.mem_cons_self x xs)
    obtain ⟨b, hb⟩ := Option.isSome_iff_exists.mp hx
    have ih1 := ih (fun y hy => h y (List.mem_cons_of_mem x hy))
    rw [List.filterMap_cons_some hb]
    simp [hb, ih1.1, ih1.2]

/-- As the claim C10 states it, `NextN(n)` would return a result for every
`n >= 0`. With the capacity limit of a 64-bit runtime (2^45 pointers),
`NextN(2^62)` panics at its `make`, on an iterator that has an album to give. -/
theorem NextN_claim_counterexample :
    (0 : Int) ≤ 2 ^ 62 ∧
    ((BatchingIterator.mk ⟨fun _ => some ⟨"a", "id", "", [], []⟩, 0⟩).NextN (2 ^ 45)
        (2 ^ 62)).isNone = true ∧
    ((gridViewAlbumIterator.mk ⟨⟨fun _ => some ⟨"a", "id", "", [], []⟩, 0⟩⟩).NextN (2 ^ 45)
        (2 ^ 62)).isNone = true := by
  refine ⟨by norm_num, ?_, ?_⟩
  · simp [BatchingIterator.NextN]
  · simp [gridViewAlbumIterator.NextN, BatchingIterator.NextN]

/-- **C10 (amended).** For `0 <= n <= capLimit`, the capacities `make` can
allocate, `BatchingIterator.NextN(n)` does not panic and returns the albums the
underlying iterator yields next, in order: its `j`-th element is the `j`-th
coming yield and is non-nil; it has at most `n` elements, exactly `min(n, k)`
when the first nil is the `k`-th yield; it is shorter than `n` exactly when one
of the `Next()` calls made during this call returned nil.
`gridViewAlbumIterator.NextN(n)` returns the image of that slice under the
album-to-item-model conversion, element by element. -/
theorem BatchingIterator.NextN_spec (b : BatchingIterator) (capLimit : Nat) (n : Int)
    (hn : 0 ≤ n) (hcap : n ≤ capLimit) :
    ∃ albums b1,
      b.NextN capLimit n = some (albums, b1) ∧
      (albums.length : Int) ≤ n ∧
      albums.map some = (List.range albums.length).map b.iter.yield ∧
      (∀ k, (∀ j, j < k → (b.iter.yield j).isSome = true) → b.iter.yield k = none →
        albums.length = min n.toNat k) ∧
      ((albums.length : Int) < n ↔
        ∃ j, b.iter.calls + j < b1.iter.calls ∧ b.iter.yield j = none) ∧
      (gridViewAlbumIterator.mk b).NextN capLimit n
        = some (albums.map albumToItemModel, ⟨b1⟩) := by
  obtain ⟨m, hmk, hres, hsome, hstop, _, hcalls⟩ :=
    BatchingIterator.nextNLoop_spec n.toNat b.iter []
  have hN : b.NextN capLimit n = some ((BatchingIterator.nextNLoop n.toNat b.iter []).1,
      ⟨(BatchingIterator.nextNLoop n.toNat b.iter []).2⟩) := by
    simp [BatchingIterator.NextN, not_lt.mpr hn, not_lt.mpr hcap]
  have hall : ∀ x, x ∈ List.range m → (b.iter.yield x).isSome = true :=
    fun x hx => hsome x (List.mem_range.mp hx)
  have hfm := map_some_filterMap_of_isSome b.iter.yield (List.range m) hall
  have hlen : (BatchingIterator.nextNLoop n.toNat b.iter []).1.length = m := by
    rw [hres]; simpa using hfm.2
  refine ⟨_, _, hN, ?_, ?_, ?_, ?_, ?_⟩
  · rw [hlen]; omega
  · rw [hlen, hres]; simpa using hfm.1
  · intro k hbefore hk
    rw [hlen]
    have hkm : ¬ k < m := by
      intro hlt
      have := hsome k hlt
      simp [hk] at this
    by_cases hlt : m < n.toNat
    · have hm := hstop hlt
      have hmk2 : ¬ m < k := by
        intro h2
        have := hbefore m h2
        simp [hm] at this
      omega
    · omega
  · rw [hlen, hcalls]
    constructor
    · intro hlt
      have hlt2 : m < n.toNat := by omega
      exact ⟨m, by simp [hlt2], hstop hlt2⟩
    · rintro ⟨j, hj, hnone⟩
      by_contra hge
      have hge2 : ¬ m < n.toNat := by omega
      simp [hge2] at hj
      have := hsome j hj
      simp [hnone] at this
  · simp [gridViewAlbumIterator.NextN, hN, MapSlice]

/-- The statement of `NextN_spec` at an iterator with two albums, `n = 3` and the
capacity limit of a 64-bit runtime. -/
theorem BatchingIterator.NextN_spec_witness :
    ((0 : Int) ≤ 3 ∧ (3 : Int) ≤ ((2 ^ 45 : Nat) : Int)) ∧
    ∃ albums b1,
      (BatchingIterator.mk ⟨fun k => if k < 2 then some ⟨"a", "id", "", [], []⟩ else none,
          0⟩).NextN (2 ^ 45) 3
        = some (albums, b1) ∧ albums.length = 2 := by
  refine ⟨⟨by decide, by norm_num⟩, ?_⟩
  obtain ⟨albums, b1, h, _, _, hmin, _, _⟩ := BatchingIterator.NextN_spec
    (BatchingIterator.mk ⟨fun k => if k < 2 then some ⟨"a", "id", "", [], []⟩ else none, 0⟩)
    (2 ^ 45) 3 (by decide) (by norm_num)
  refine ⟨albums, b1, h, ?_⟩
  have := hmin 2 (by intro j hj; simp [AlbumIterator.yield, hj]) (by simp [AlbumIterator.yield])
  simpa using this

/-! ## `checkFetchMoreItems` when done or already fetching -/

/-- **C2.** When `done` is set or `fetchCancel` is non-nil, `checkFetchMoreItems`
returns the view as it was: every field of the store, the table of goroutines
(so no fetch loop is started) and the log of `NextN` calls are unchanged. -/
theorem checkFetchMoreItems_noop (g : GridView) (count : Int)
    (h : g.done = true ∨ g.fetchCancel ≠ none) :
    g.checkFetchMoreItems count = g ∧
      (g.checkFetchMoreItems count).nextNLog = g.nextNLog ∧
      (g.checkFetchMoreItems count).nextFetch = g.nextFetch := by
  have hc : (g.done || g.fetchCancel.isSome) = true := by
    rcases h with h | h
    · simp [h]
    · cases hf : g.fetchCancel with
      | none => exact absurd hf h
      | some i => simp
  have : g.checkFetchMoreItems count = g := by
    simp only [GridView.checkFetchMoreItems, hc, if_true]
  simp [this]

/-- The statement of `checkFetchMoreItems_noop` at a fixed view of one record. -/
theorem checkFetchMoreItems_noop_witness :
    (NewFixedGridView [mkItem "A"]).done = true ∧
    (NewFixedGridView [mkItem "A"]).checkFetchMoreItems 20 = NewFixedGridView [mkItem "A"] ∧
      ((NewFixedGridView [mkItem "A"]).checkFetchMoreItems 20).nextNLog =
        (NewFixedGridView [mkItem "A"]).nextNLog ∧
      ((NewFixedGridView [mkItem "A"]).checkFetchMoreItems 20).nextFetch =
        (NewFixedGridView [mkItem "A"]).nextFetch :=
  ⟨rfl, checkFetchMoreItems_noop (NewFixedGridView [mkItem "A"]) 20 (Or.inl rfl)⟩

/-! ## Reset operations -/

theorem cancelFetch_fetchCancel (g : GridView) : g.cancelFetch.fetchCancel = none := by
  unfold GridView.cancelFetch
  cases h : g.fetchCancel <;> simp [h]

theorem cancelFetch_state (g : GridView) :
    g.cancelFetch.toGridViewState = g.toGridViewState := by
  unfold GridView.cancelFetch
  cases h : g.fetchCancel <;> simp

/-! ## Out-of-range row updates -/

/-- **C8.** For an index at or beyond `len(items)`, `doUpdateItemCard` does not
panic (the guarded read skips the slice access and yields the zero item
model), leaves `items` as it was, and the card afterwards displays the zero
`GridViewItemModel` at that index. -/
theorem doUpdateItemCard_out_of_range (g : GridView) (itemIdx : Int) (card : GridViewItem)
    (h : (g.items.length : Int) ≤ itemIdx) :
    (g.noteShown itemIdx).itemAt itemIdx = some GridViewItemModel.zero ∧
    ∃ g1 card1, g.doUpdateItemCard itemIdx card = some (g1, card1) ∧
      g1.items = g.items ∧
      card1.shown = GridViewItemModel.zero ∧ card1.ItemIndex = itemIdx := by
  have hitems : (g.noteShown itemIdx).items = g.items := by
    unfold GridView.noteShown; split <;> rfl
  have hat : (g.noteShown itemIdx).itemAt itemIdx = some GridViewItemModel.zero := by
    simp [GridView.itemAt, hitems, not_lt.mpr h]
  refine ⟨hat, ?_⟩
  simp only [GridView.doUpdateItemCard, hat]
  by_cases hc : (!card.NeedsUpdate GridViewItemModel.zero && card.ItemIndex == itemIdx) = true
  · rw [if_pos hc]
    refine ⟨_, _, rfl, hitems, ?_, ?_⟩
    · simp [GridViewItem.NeedsUpdate] at hc; exact hc.1
    · simp at hc; exact hc.2
  · rw [if_neg hc]
    refine ⟨_, _, rfl, ?_, rfl, rfl⟩
    unfold GridView.fetchIfNearEnd GridView.checkFetchMoreItems
    split
    · split
      · exact hitems
      · split <;> exact hitems
    · exact hitems

/-- The statement of `doUpdateItemCard_out_of_range` at index 17 of a view of 10
records. -/
theorem doUpdateItemCard_out_of_range_witness :
    (((NewFixedGridView (sample21.take 10)).items.length : Int) ≤ 17) ∧
    ((NewFixedGridView (sample21.take 10)).noteShown 17).itemAt 17
      = some GridViewItemModel.zero ∧
    ∃ g1 card1, (NewFixedGridView (sample21.take 10)).doUpdateItemCard 17 ⟨3, mkItem "r03"⟩
        = some (g1, card1) ∧
      g1.items = (NewFixedGridView (sample21.take 10)).items ∧
      card1.shown = GridViewItemModel.zero ∧ card1.ItemIndex = 17 :=
  ⟨by decide, doUpdateItemCard_out_of_range (NewFixedGridView (sample21.take 10)) 17
    ⟨3, mkItem "r03"⟩ (by decide)⟩

/-! ## A fetch goroutine running alone -/

theorem runFetch_zero (g : GridView) (i : Nat) : g.runFetch i 0 = some g := rfl

theorem runFetch_succ (g : GridView) (i k : Nat) :
    g.runFetch i (k + 1) = (g.fetchStep i).bind (fun g1 => g1.runFetch i k) := by
  simp only [GridView.runFetch, List.replicate_succ, GridView.exec, GridView.step]
  cases g.fetchStep i <;> rfl

theorem runFetch_add (i : Nat) (a b : Nat) :
    ∀ g : GridView, g.runFetch i (a + b) = (g.runFetch i a).bind (fun g1 => g1.runFetch i b) := by
  induction a with
  | zero => intro g; simp [runFetch_zero]
  | succ a ih =>
    intro g
    rw [Nat.succ_add, runFetch_succ, runFetch_succ]
    cases h : g.fetchStep i with
    | none => rfl
    | some g1 => simpa using ih g1

/-- A goroutine that has returned takes no further step. -/
theorem runFetch_exited (i : Nat) (c : Int) (d : Bool) (k : Nat) :
    ∀ g : GridView, g.fetches i = some ⟨c, d, FetchPC.exited⟩ → g.runFetch i k = some g := by
  induction k with
  | zero => intro g _; rfl
  | succ k ih =>
    intro g h
    have hs : g.fetchStep i = some g := by simp [GridView.fetchStep, h]
    rw [runFetch_succ, hs]
    exact ih g h

/-- One round of the inner loop with the context open: the test, the `NextN`
call, the `select`, the append and the short-batch test. -/
theorem fetch_round (g : GridView) (i : Nat) (count n : Int) (it it1 : GridViewIterator)
    (batch : List GridViewItemModel)
    (hf : g.fetches i = some ⟨count, false, FetchPC.innerCheck n⟩) (hd : g.done = false)
    (hn : n < count) (hit : g.iter = some it)
    (hnext : it.NextN batchFetchSize = some (batch, it1)) :
    ∃ g1, g.runFetch i 5 = some g1 ∧ g1.items = g.items ++ batch ∧
      g1.done = decide ((batch.length : Int) < batchFetchSize) ∧ g1.iter = some it1 ∧
      g1.fetchCancel = g.fetchCancel ∧
      g1.fetches i = some ⟨count, false, FetchPC.innerCheck (n + batch.length)⟩ ∧
      g1.highestShown = g.highestShown ∧ g1.nextNLog = g.nextNLog ++ [batch] := by
  simp [runFetch_succ, runFetch_zero, GridView.fetchStep, GridView.setFetch, hf, hd, hn, hit,
    hnext]
  split <;> simp_all

/-- Once `done` is set, a goroutine at the inner test leaves both loops, calls
`cancelFetch` and returns. -/
theorem fetch_finish (g : GridView) (i : Nat) (count n : Int)
    (hf : g.fetches i = some ⟨count, false, FetchPC.innerCheck n⟩) (hd : g.done = true)
    (hc : g.fetchCancel = some i) :
    ∃ g1, g.runFetch i 3 = some g1 ∧ g1.toGridViewState = g.toGridViewState ∧
      g1.fetchCancel = none ∧ g1.fetches i = some ⟨count, true, FetchPC.exited⟩ ∧
      g1.nextNLog = g.nextNLog := by
  simp [runFetch_succ, runFetch_zero, GridView.fetchStep, GridView.setFetch,
    GridView.cancelFetch, hf, hd, hc]

/-- From the inner test, with fewer records left than the count still asks for,
the goroutine running alone appends everything that is left, sets `done`, and
returns with `fetchCancel` nil. -/
theorem fetch_drains (it : GridViewIterator) (reach : it.State → Prop)
    (rest : it.State → List GridViewItemModel)
    (hrest : ∀ st, reach st →
      ∃ st1, it.nextN st batchFetchSize = some ((rest st).take 6, st1) ∧
        reach st1 ∧ rest st1 = (rest st).drop 6)
    (count : Int) (i : Nat) :
    ∀ (m : Nat) (st : it.State) (g : GridView) (n : Int), reach st →
      (rest st).length ≤ m → g.iter = some { it with st := st } →
      g.fetches i = some ⟨count, false, FetchPC.innerCheck n⟩ →
      g.fetchCancel = some i → g.done = false → n + (rest st).length < count →
      ∃ k g1, g.runFetch i k = some g1 ∧ g1.items = g.items ++ rest st ∧ g1.done = true ∧
        g1.fetchCancel = none ∧ g1.fetches i = some ⟨count, true, FetchPC.exited⟩ ∧
        g1.highestShown = g.highestShown := by
  intro m
  induction m with
  | zero =>
    intro st g n hreach hm hit hf hc hd hcount
    obtain ⟨st1, hst1, _, _⟩ := hrest st hreach
    have hnil : rest st = [] := List.length_eq_zero.mp (Nat.le_zero.mp hm)
    rw [hnil] at hst1
    have hnext : GridViewIterator.NextN { it with st := st } batchFetchSize
        = some ([], { it with st := st1 }) := by
      simp [GridViewIterator.NextN, hst1]
    have hn : n < count := by simp [hnil] at hcount; exact hcount
    obtain ⟨g1, hrun, hitems, hdone, _, hfc, hfi, hhs, _⟩ :=
      fetch_round g i count n _ _ _ hf hd hn hit hnext
    obtain ⟨g2, hrun2, hst2, hfc2, hfi2, _⟩ :=
      fetch_finish g1 i count _ hfi (by simp [hdone, batchFetchSize]) (hfc.trans hc)
    refine ⟨5 + 3, g2, ?_, ?_, ?_, hfc2, hfi2, ?_⟩
    · rw [runFetch_add, hrun]; exact hrun2
    · have : g2.items = g1.items := congrArg GridViewState.items hst2
      rw [this, hitems, hnil]
    · have : g2.done = g1.done := congrArg GridViewState.done hst2
      rw [this, hdone]; simp [batchFetchSize]
    · have : g2.highestShown = g1.highestShown := congrArg GridViewState.highestShown hst2
      rw [this, hhs]
  | succ m ih =>
    intro st g n hreach hm hit hf hc hd hcount
    obtain ⟨st1, hst1, hreach1, hrest1⟩ := hrest st hreach
    have hnext : GridViewIterator.NextN { it with st := st } batchFetchSize
        = some ((rest st).take 6, { it with st := st1 }) := by
      simp [GridViewIterator.NextN, hst1]
    have hn : n < count := by omega
    obtain ⟨g1, hrun, hitems, hdone, hiter, hfc, hfi, hhs, _⟩ :=
      fetch_round g i count n _ _ _ hf hd hn hit hnext
    by_cases hshort : (rest st).length < 6
    · have htake : (rest st).take 6 = rest st := List.take_of_length_le (by omega)
      have hd1 : g1.done = true := by
        rw [hdone, htake]; simp [batchFetchSize]; omega
      obtain ⟨g2, hrun2, hst2, hfc2, hfi2, _⟩ :=
        fetch_finish g1 i count _ hfi hd1 (hfc.trans hc)
      refine ⟨5 + 3, g2, ?_, ?_, ?_, hfc2, hfi2, ?_⟩
      · rw [runFetch_add, hrun]; exact hrun2
      · have : g2.items = g1.items := congrArg GridViewState.items hst2
        rw [this, hitems, htake]
      · have : g2.done = g1.done := congrArg GridViewState.done hst2
        rw [this, hd1]
      · have : g2.highestShown = g1.highestShown := congrArg GridViewState.highestShown hst2
        rw [this, hhs]
    · have hlen : ((rest st).take 6).length = 6 := by
        rw [List.length_take]; omega
      have hd1 : g1.done = false := by
        rw [hdone, hlen]; simp [batchFetchSize]
      have hrest1len : (rest st1).length ≤ m := by
        rw [hrest1]; simp [batchFetchSize]; omega
      have hcount1 : n + (((rest st).take 6).length : Int) + ((rest st1).length : Int) < count := by
        rw [hlen, hrest1]; simp [batchFetchSize]; omega
      obtain ⟨k, g2, hrun2, hitems2, hdone2, hfc2, hfi2, hhs2⟩ :=
        ih st1 g1 _ hreach1 hrest1len hiter hfi (hfc.trans hc) hd1 hcount1
      refine ⟨5 + k, g2, ?_, ?_, hdone2, hfc2, hfi2, ?_⟩
      · rw [runFetch_add, hrun]; exact hrun2
      · rw [hitems2, hitems, hrest1, List.append_assoc]
        simp [batchFetchSize]
      · rw [hhs2, hhs]

/-- The outer test succeeding: the goroutine enters the inner loop with `n = 0`. -/
theorem fetch_enter (g : GridView) (i : Nat) (count : Int)
    (hf : g.fetches i = some ⟨count, false, FetchPC.outerCheck⟩) (hd : g.done = false)
    (hh : g.highestShown ≥ g.lenItems - 10) :
    ∃ g1, g.runFetch i 1 = some g1 ∧ g1.toGridViewState = g.toGridViewState ∧
      g1.fetchCancel = g.fetchCancel ∧
      g1.fetches i = some ⟨count, false, FetchPC.innerCheck 0⟩ ∧
      g1.nextNLog = g.nextNLog := by
  simp [runFetch_succ, runFetch_zero, GridView.fetchStep, GridView.setFetch, hf, hd, hh]

theorem sliceIterator_streams (xs : List GridViewItemModel) : (sliceIterator xs).Streams xs := by
  refine ⟨fun _ => True, fun st => st, trivial, rfl, ?_⟩
  intro st _
  exact ⟨st.drop 6, rfl, trivial, rfl⟩

/-! ## The near-the-end trigger of `doUpdateItemCard` -/

theorem noteShown_frame (g : GridView) (itemIdx : Int) :
    (g.noteShown itemIdx).items = g.items ∧ (g.noteShown itemIdx).done = g.done ∧
    (g.noteShown itemIdx).iter = g.iter ∧ (g.noteShown itemIdx).fetchCancel = g.fetchCancel ∧
    (g.noteShown itemIdx).fetches = g.fetches ∧ (g.noteShown itemIdx).nextFetch = g.nextFetch ∧
    (g.noteShown itemIdx).nextNLog = g.nextNLog ∧
    itemIdx ≤ (g.noteShown itemIdx).highestShown ∧
    g.highestShown ≤ (g.noteShown itemIdx).highestShown := by
  unfold GridView.noteShown
  split
  · refine ⟨rfl, rfl, rfl, rfl, rfl, rfl, rfl, le_refl _, ?_⟩
    simp; omega
  · refine ⟨rfl, rfl, rfl, rfl, rfl, rfl, rfl, ?_, le_refl _⟩
    omega

/-- What `checkFetchMoreItems` does when it starts a fetch. -/
theorem checkFetchMoreItems_start (g : GridView) (count : Int) (it : GridViewIterator)
    (hd : g.done = false) (hfc : g.fetchCancel = none) (hit : g.iter = some it) :
    (g.checkFetchMoreItems count).toGridViewState = g.toGridViewState ∧
    (g.checkFetchMoreItems count).fetchCancel = some g.nextFetch ∧
    (g.checkFetchMoreItems count).fetches g.nextFetch
      = some ⟨count, false, FetchPC.outerCheck⟩ ∧
    (∀ j, j ≠ g.nextFetch → (g.checkFetchMoreItems count).fetches j = g.fetches j) ∧
    (g.checkFetchMoreItems count).nextFetch = g.nextFetch + 1 ∧
    (g.checkFetchMoreItems count).nextNLog = g.nextNLog := by
  simp only [GridView.checkFetchMoreItems, hd, hfc, hit]
  refine ⟨rfl, rfl, by simp, ?_, rfl, rfl⟩
  intro j hj
  simp [hj]

/-- As the claim C9 states it, `doUpdateItemCard` on any card would start a
fetch. On a view of 10 records with `done` false, an iterator and no active
fetch, the call for index 5 (`len(items) - 5`) with the card that already
displays record 5 at index 5 returns at the `nothing to do` test: no goroutine
is started, `fetchCancel` stays nil and `items` keeps its 10 records. -/
theorem doUpdateItemCard_claim_counterexample :
    (newGridView ⟨sample21.take 10, some (sliceIterator (sample21.drop 10)), 0,
        false⟩).done = false ∧
    (newGridView ⟨sample21.take 10, some (sliceIterator (sample21.drop 10)), 0,
        false⟩).fetchCancel = none ∧
    ((newGridView ⟨sample21.take 10, some (sliceIterator (sample21.drop 10)), 0,
        false⟩).doUpdateItemCard 5 ⟨5, mkItem "r05"⟩).map
        (fun r => (r.1.fetchCancel, r.1.nextFetch, r.1.items.length, r.1.highestShown, r.2))
      = some (none, 0, 10, 5, ⟨5, mkItem "r05"⟩) := by
  refine ⟨rfl, rfl, by decide⟩

/-- **C9 (amended).** For a store with `done` false, an iterator and no active
fetch, an index in range with `index > len(items) - 10`, and a card that is not
already showing `items[index]` at that index, `doUpdateItemCard(index, card)`
binds the card to `items[index]`, invokes `checkFetchMoreItems(20)` and starts a
fetch goroutine whose cancel function `fetchCancel` then holds; when that
goroutine runs alone and the next `NextN(6)` of the iterator returns a batch, the
batch is appended to `items`, so a non-empty batch makes `len(items)` grow by at
least 1. -/
theorem doUpdateItemCard_starts_fetch (g : GridView) (itemIdx : Int) (card : GridViewItem)
    (it : GridViewIterator) (item : GridViewItemModel)
    (hd : g.done = false) (hit : g.iter = some it) (hfc : g.fetchCancel = none)
    (h0 : 0 ≤ itemIdx) (hlt : itemIdx < g.items.length) (hwin : itemIdx > g.lenItems - 10)
    (hitem : g.items[itemIdx.toNat]? = some item)
    (hcard : card.NeedsUpdate item = true ∨ card.ItemIndex ≠ itemIdx) :
    ∃ g1 card1, g.doUpdateItemCard itemIdx card = some (g1, card1) ∧
      g1 = (g.noteShown itemIdx).checkFetchMoreItems 20 ∧
      card1 = ⟨itemIdx, item⟩ ∧
      g1.items = g.items ∧ g1.fetchCancel = some g.nextFetch ∧
      g1.fetches g.nextFetch = some ⟨20, false, FetchPC.outerCheck⟩ ∧
      ∀ batch it1, it.NextN batchFetchSize = some (batch, it1) →
        ∃ g2, g1.runFetch g.nextFetch 6 = some g2 ∧ g2.items = g.items ++ batch ∧
          (batch ≠ [] → g.items.length + 1 ≤ g2.items.length) := by
  obtain ⟨hni, hnd, hnit, hnfc, _, hnnf, _, hnh, _⟩ := noteShown_frame g itemIdx
  have hat : (g.noteShown itemIdx).itemAt itemIdx = some item := by
    simp [GridView.itemAt, hni, hlt, not_lt.mpr h0, hitem]
  have hcond : (!card.NeedsUpdate item && card.ItemIndex == itemIdx) = false := by
    rcases hcard with h | h
    · simp [h]
    · simp [h]
  have hnear : (g.noteShown itemIdx).fetchIfNearEnd itemIdx
      = (g.noteShown itemIdx).checkFetchMoreItems 20 := by
    have : itemIdx > (g.noteShown itemIdx).lenItems - 10 := by
      simpa [GridView.lenItems, hni] using hwin
    simp [GridView.fetchIfNearEnd, this]
  obtain ⟨hst, hfc1, hfi1, _, _, _⟩ := checkFetchMoreItems_start (g.noteShown itemIdx) 20 it
    (hnd.trans hd) (hnfc.trans hfc) (hnit.trans hit)
  rw [hnnf] at hfc1 hfi1
  have hitems1 : ((g.noteShown itemIdx).checkFetchMoreItems 20).items = g.items :=
    (congrArg GridViewState.items hst).trans hni
  refine ⟨_, _, ?_, rfl, rfl, hitems1, hfc1, hfi1, ?_⟩
  · simp [GridView.doUpdateItemCard, hat, hcond, hnear, GridViewItem.Update]
  · intro batch it1 hnext
    have hd1 : ((g.noteShown itemIdx).checkFetchMoreItems 20).done = false :=
      (congrArg GridViewState.done hst).trans (hnd.trans hd)
    have hh1 : ((g.noteShown itemIdx).checkFetchMoreItems 20).highestShown
        ≥ ((g.noteShown itemIdx).checkFetchMoreItems 20).lenItems - 10 := by
      have e1 : ((g.noteShown itemIdx).checkFetchMoreItems 20).highestShown
          = (g.noteShown itemIdx).highestShown := congrArg GridViewState.highestShown hst
      have e2 : ((g.noteShown itemIdx).checkFetchMoreItems 20).lenItems = g.lenItems := by
        simp [GridView.lenItems, hitems1]
      rw [e1, e2]; omega
    obtain ⟨g2, hrun2, hst2, _, hfi2, _⟩ := fetch_enter _ g.nextFetch 20 hfi1 hd1 hh1
    have hd2 : g2.done = false := (congrArg GridViewState.done hst2).trans hd1
    have hit2 : g2.iter = some it :=
      (congrArg GridViewState.iter hst2).trans
        ((congrArg GridViewState.iter hst).trans (hnit.trans hit))
    obtain ⟨g3, hrun3, hitems3, _⟩ :=
      fetch_round g2 g.nextFetch 20 0 it it1 batch hfi2 hd2 (by decide) hit2 hnext
    have hitems2 : g2.items = g.items := (congrArg GridViewState.items hst2).trans hitems1
    refine ⟨g3, ?_, by rw [hitems3, hitems2], ?_⟩
    · have : (6 : Nat) = 1 + 5 := rfl
      rw [this, runFetch_add, hrun2]; exact hrun3
    · intro hne
      rw [hitems3, hitems2, List.length_append]
      have : 0 < batch.length := List.length_pos.mpr hne
      omega

/-- The statement of `doUpdateItemCard_starts_fetch` on a view of 10 records with
11 more to come, for index 5 and a fresh card (`ItemIndex = -1`). -/
theorem doUpdateItemCard_starts_fetch_witness :
    ∃ g1 card1,
      (newGridView ⟨sample21.take 10, some (sliceIterator (sample21.drop 10)), 0,
        false⟩).doUpdateItemCard 5 ⟨-1, GridViewItemModel.zero⟩ = some (g1, card1) ∧
      g1.fetchCancel = some 0 ∧
      ∃ g2, g1.runFetch 0 6 = some g2 ∧
        g2.items = sample21.take 10 ++ (sample21.drop 10).take 6 ∧ 10 + 1 ≤ g2.items.length := by
  obtain ⟨g1, card1, h1, _, _, _, hfc, _, hrun⟩ := doUpdateItemCard_starts_fetch
    (newGridView ⟨sample21.take 10, some (sliceIterator (sample21.drop 10)), 0, false⟩)
    5 ⟨-1, GridViewItemModel.zero⟩ (sliceIterator (sample21.drop 10)) (mkItem "r05")
    rfl rfl rfl (by decide) (by decide) (by decide) (by decide) (Or.inr (by decide))
  obtain ⟨g2, hrun2, hitems2, hlen⟩ := hrun ((sample21.drop 10).take 6)
    (sliceIterator ((sample21.drop 10).drop 6)) rfl
  exact ⟨g1, card1, h1, hfc, g2, hrun2, hitems2, hlen (by decide)⟩

/-! ## At most one active fetch -/

theorem cancelFetch_fetchInv (g : GridView) (h : g.FetchInv) :
    (∀ i, g.cancelFetch.activeFetch i = false) ∧
    (∀ i, g.nextFetch ≤ i → g.cancelFetch.fetches i = none) ∧
    g.cancelFetch.nextFetch = g.nextFetch := by
  obtain ⟨h1, h2⟩ := h
  unfold GridView.cancelFetch
  cases hf : g.fetchCancel with
  | none =>
    refine ⟨?_, h2, rfl⟩
    intro i
    have := h1 i
    simp [hf] at this
    simpa using this
  | some k =>
    refine ⟨?_, ?_, rfl⟩
    · intro i
      have := h1 i
      by_cases hik : i = k
      · subst hik
        simp only [GridView.activeFetch]
        cases hfi : g.fetches i <;> simp [FetchLoop.active]
      · have hne : ¬ g.fetchCancel = some i := by rw [hf]; simpa using fun h => hik h.symm
        have hna : g.activeFetch i = false := by
          cases hb : g.activeFetch i
          · rfl
          · exact absurd (this.mp hb) hne
        simpa [GridView.activeFetch, hik] using hna
    · intro i hi
      by_cases hik : i = k
      · simp [hik, h2 k (hik ▸ hi)]
      · simp [hik, h2 i hi]

theorem fetchInv_of_same_activity (g g1 : GridView) (h : g.FetchInv)
    (hfc : g1.fetchCancel = g.fetchCancel) (hnf : g1.nextFetch = g.nextFetch)
    (hact : ∀ j, g1.activeFetch j = g.activeFetch j)
    (hnone : ∀ j, g.fetches j = none → g1.fetches j = none) : g1.FetchInv := by
  refine ⟨fun j => ?_, fun j hj => hnone j (h.2 j (hnf ▸ hj))⟩
  rw [hact j, hfc]; exact h.1 j

theorem fetchInv_of_setFetch (g g0 : GridView) (i : Nat) (l l1 : FetchLoop) (h : g.FetchInv)
    (hl : g.fetches i = some l) (hfs : g0.fetches = g.fetches)
    (hfc : g0.fetchCancel = g.fetchCancel) (hnf : g0.nextFetch = g.nextFetch)
    (hact : l1.active = l.active) : (g0.setFetch i l1).FetchInv := by
  refine fetchInv_of_same_activity g _ h hfc hnf ?_ ?_
  · intro j
    by_cases hj : j = i
    · subst hj; simp [GridView.activeFetch, GridView.setFetch, hl, hact]
    · simp [GridView.activeFetch, GridView.setFetch, hj, hfs]
  · intro j hj
    by_cases hji : j = i
    · subst hji; rw [hl] at hj; cases hj
    · simp [GridView.setFetch, hji, hfs, hj]

theorem fetchStep_fetchInv (g g1 : GridView) (i : Nat) (h : g.FetchInv)
    (hs : g.fetchStep i = some g1) : g1.FetchInv := by
  unfold GridView.fetchStep at hs
  split at hs
  · cases hs; exact h
  · rename_i l hl
    split at hs
    · rename_i hpc
      split at hs <;> cases hs <;>
        exact fetchInv_of_setFetch g g i l _ h hl rfl rfl rfl (by simp [FetchLoop.active, hpc])
    · rename_i n hpc
      split at hs <;> cases hs <;>
        exact fetchInv_of_setFetch g g i l _ h hl rfl rfl rfl (by simp [FetchLoop.active, hpc])
    · rename_i n hpc
      split at hs
      · cases hs
      · split at hs
        · cases hs
        · cases hs
          exact fetchInv_of_setFetch g _ i l _ h hl rfl rfl rfl (by simp [FetchLoop.active, hpc])
    · rename_i n items hpc
      split at hs
      · rename_i hd
        cases hs
        exact fetchInv_of_setFetch g g i l _ h hl rfl rfl rfl (by simp [FetchLoop.active, hpc, hd])
      · cases hs
        exact fetchInv_of_setFetch g g i l _ h hl rfl rfl rfl (by simp [FetchLoop.active, hpc])
    · rename_i n items hpc
      cases hs
      exact fetchInv_of_setFetch g _ i l _ h hl rfl rfl rfl (by simp [FetchLoop.active, hpc])
    · rename_i n items hpc
      cases hs
      refine fetchInv_of_setFetch g _ i l _ h hl ?_ ?_ ?_ (by simp [FetchLoop.active, hpc])
      all_goals (split <;> rfl)
    · rename_i hpc
      obtain ⟨c1, c2, c3⟩ := cancelFetch_fetchInv g h
      have hcf := cancelFetch_fetchCancel g
      dsimp only at hs
      split at hs
      · cases hs
        exact ⟨fun j => by simp [c1 j, hcf], fun j hj => c2 j (c3 ▸ hj)⟩
      · rename_i l1 hl1
        cases hs
        refine ⟨fun j => ?_, fun j hj => ?_⟩
        · have : (g.cancelFetch.setFetch i { l1 with pc := FetchPC.exited }).activeFetch j = false := by
            by_cases hji : j = i
            · subst hji; simp [GridView.activeFetch, GridView.setFetch, FetchLoop.active]
            · have := c1 j
              simpa [GridView.activeFetch, GridView.setFetch, hji] using this
          have hfc2 : (g.cancelFetch.setFetch i { l1 with pc := FetchPC.exited }).fetchCancel
              = none := hcf
          rw [this, hfc2]; simp
        · have hne : j ≠ i := by
            intro hji; subst hji
            have := c2 j (by simpa [GridView.setFetch, c3] using hj)
            rw [hl1] at this; cases this
          have := c2 j (by simpa [GridView.setFetch, c3] using hj)
          simpa [GridView.setFetch, hne] using this
    · cases hs; exact h

theorem fetchInv_of_cancelled (g g1 : GridView) (h : g.FetchInv)
    (hfs : g1.fetches = g.cancelFetch.fetches) (hfc : g1.fetchCancel = none)
    (hnf : g1.nextFetch = g.nextFetch) : g1.FetchInv := by
  obtain ⟨c1, c2, _⟩ := cancelFetch_fetchInv g h
  refine ⟨fun j => ?_, fun j hj => ?_⟩
  · have : g1.activeFetch j = false := by
      have := c1 j
      simpa [GridView.activeFetch, hfs] using this
    rw [this, hfc]; simp
  · rw [hfs]; exact c2 j (hnf ▸ hj)

theorem cancelFetch_nextFetch (g : GridView) : g.cancelFetch.nextFetch = g.nextFetch := by
  unfold GridView.cancelFetch
  cases h : g.fetchCancel <;> simp

theorem checkFetchMoreItems_fetchInv (g : GridView) (count : Int) (h : g.FetchInv) :
    (g.checkFetchMoreItems count).FetchInv := by
  unfold GridView.checkFetchMoreItems
  split
  · exact h
  · rename_i hc
    split
    · exact fetchInv_of_same_activity g _ h rfl rfl (fun _ => rfl) (fun _ hj => hj)
    · have hfc : g.fetchCancel = none := by
        cases hf : g.fetchCancel with
        | none => rfl
        | some k => simp [hf] at hc
      have hinactive : ∀ j, g.activeFetch j = false := by
        intro j
        cases hb : g.activeFetch j with
        | false => rfl
        | true =>
          have := (h.1 j).mp hb
          rw [hfc] at this; cases this
      refine ⟨fun j => ?_, fun j hj => ?_⟩
      · by_cases hj : j = g.nextFetch
        · subst hj; simp [GridView.activeFetch, FetchLoop.active]
        · have := hinactive j
          have hne : ¬ g.nextFetch = j := fun e => hj e.symm
          simpa [GridView.activeFetch, hj, hne] using this
      · have hj1 : g.nextFetch + 1 ≤ j := hj
        have hne : j ≠ g.nextFetch := by omega
        have := h.2 j (by omega)
        simpa [hne] using this

theorem step_fetchInv (g g1 : GridView) (a : Action) (h : g.FetchInv)
    (hs : g.step a = some g1) : g1.FetchInv := by
  cases a with
  | fetchStep i => exact fetchStep_fetchInv g g1 i h hs
  | showRow itemIdx =>
    cases hs
    obtain ⟨_, _, _, hfc, hfs, hnf, _⟩ := noteShown_frame g itemIdx
    exact fetchInv_of_same_activity g _ h hfc hnf
      (fun j => by simp [GridView.activeFetch, hfs]) (fun j hj => by rw [hfs]; exact hj)
  | nearEnd itemIdx =>
    cases hs
    simp only [GridView.fetchIfNearEnd]
    split
    · exact checkFetchMoreItems_fetchInv g 20 h
    · exact h
  | checkFetchMoreItems count => cases hs; exact checkFetchMoreItems_fetchInv g count h
  | Clear =>
    cases hs
    exact fetchInv_of_cancelled g _ h rfl (cancelFetch_fetchCancel g) (cancelFetch_nextFetch g)
  | resetLocked iter =>
    cases hs
    exact fetchInv_of_cancelled g _ h rfl (cancelFetch_fetchCancel g) (cancelFetch_nextFetch g)
  | resetFromStateLocked state =>
    cases hs
    exact fetchInv_of_cancelled g _ h rfl (cancelFetch_fetchCancel g) (cancelFetch_nextFetch g)
  | resetFixedLocked items =>
    cases hs
    exact fetchInv_of_cancelled g _ h rfl (cancelFetch_fetchCancel g) (cancelFetch_nextFetch g)

theorem newGridView_fetchInv (st : GridViewState) : (newGridView st).FetchInv :=
  ⟨fun j => by simp [GridView.activeFetch, newGridView], fun j _ => rfl⟩

theorem reachable_fetchInv (g : GridView) (h : Reachable g) : g.FetchInv := by
  induction h with
  | fixed items => exact newGridView_fetchInv _
  | stream iter => exact checkFetchMoreItems_fetchInv _ 36 (newGridView_fetchInv _)
  | fromState state => exact newGridView_fetchInv _
  | step a _ hs ih => exact step_fetchInv _ _ a ih hs

theorem reachable_exec (acts : List Action) :
    ∀ g g1 : GridView, Reachable g → g.exec acts = some g1 → Reachable g1 := by
  induction acts with
  | nil => intro g g1 hg h; cases h; exact hg
  | cons a as ih =>
    intro g g1 hg h
    simp only [GridView.exec] at h
    cases hs : g.step a with
    | none => rw [hs] at h; cases h
    | some g2 =>
      rw [hs] at h
      exact ih g2 g1 (Reachable.step a hg hs) h

/-- **C5.** In every reachable state at most one fetch loop is active (started,
not returned, context not cancelled), and `fetchCancel` is non-nil exactly when
one is, in which case it holds the cancel function of that loop.
`checkFetchMoreItems` starts a goroutine only when `fetchCancel` is nil and
`done` is false; a loop that leaves its loops naturally calls `cancelFetch` and
leaves `fetchCancel` nil with no active loop; every cancellation goes through
`cancelFetch`, which leaves `fetchCancel` nil with no active loop; and a
cancelled loop returning at its `select` finds `fetchCancel` not referring to
it and does not touch it. -/
theorem at_most_one_active_fetch (g : GridView) (hg : Reachable g) :
    (∀ i j, g.activeFetch i = true → g.activeFetch j = true → i = j) ∧
    (g.fetchCancel.isSome = true ↔ ∃ i, g.activeFetch i = true) ∧
    (∀ i, g.fetchCancel = some i ↔ g.activeFetch i = true) ∧
    (∀ count, (g.checkFetchMoreItems count).nextFetch ≠ g.nextFetch →
      g.fetchCancel = none ∧ g.done = false ∧
      (g.checkFetchMoreItems count).fetchCancel = some g.nextFetch ∧
      (g.checkFetchMoreItems count).activeFetch g.nextFetch = true) ∧
    (∀ i l g1, g.fetches i = some l → l.pc = FetchPC.finish → g.fetchStep i = some g1 →
      g1.fetchCancel = none ∧ ∀ j, g1.activeFetch j = false) ∧
    (g.cancelFetch.fetchCancel = none ∧ ∀ j, g.cancelFetch.activeFetch j = false) ∧
    (∀ i l n items g1, g.fetches i = some l → l.pc = FetchPC.selectCtx n items →
      l.ctxDone = true → g.fetchStep i = some g1 →
      g1.fetches i = some { l with pc := FetchPC.exited } ∧
      g1.fetchCancel = g.fetchCancel ∧ g.fetchCancel ≠ some i) := by
  have hinv := reachable_fetchInv g hg
  refine ⟨?_, ?_, ?_, ?_, ?_, ?_, ?_⟩
  · intro i j hi hj
    have h1 := (hinv.1 i).mp hi
    have h2 := (hinv.1 j).mp hj
    rw [h1] at h2
    exact Option.some.inj h2
  · constructor
    · intro h
      obtain ⟨i, hi⟩ := Option.isSome_iff_exists.mp h
      exact ⟨i, (hinv.1 i).mpr hi⟩
    · rintro ⟨i, hi⟩
      rw [(hinv.1 i).mp hi]; rfl
  · intro i; exact (hinv.1 i).symm
  · intro count hne
    unfold GridView.checkFetchMoreItems at hne ⊢
    split at hne
    · exact absurd rfl hne
    · rename_i hc
      have hc2 : ¬ ((g.done || g.fetchCancel.isSome) = true) := hc
      split at hne
      · exact absurd rfl hne
      · rename_i it hit
        have hd : g.done = false := by
          cases hd : g.done <;> simp [hd] at hc2 ⊢
        have hfc : g.fetchCancel = none := by
          cases hf : g.fetchCancel <;> simp [hf] at hc2 ⊢
        simp [hd, hfc, hit, GridView.activeFetch, FetchLoop.active]
  · intro i l g1 hl hpc hs
    have hinv1 := fetchStep_fetchInv g g1 i hinv hs
    have hfc : g1.fetchCancel = none := by
      simp only [GridView.fetchStep, hl, hpc] at hs
      split at hs <;> cases hs <;> exact cancelFetch_fetchCancel g
    refine ⟨hfc, fun j => ?_⟩
    cases hb : g1.activeFetch j with
    | false => rfl
    | true =>
      have := (hinv1.1 j).mp hb
      rw [hfc] at this; cases this
  · have hc := cancelFetch_fetchInv g hinv
    exact ⟨cancelFetch_fetchCancel g, hc.1⟩
  · intro i l n items g1 hl hpc hd hs
    have hs2 : g.setFetch i { l with pc := FetchPC.exited } = g1 := by
      simpa [GridView.fetchStep, hl, hpc, hd] using hs
    subst hs2
    refine ⟨by simp [GridView.setFetch], rfl, ?_⟩
    intro hfc
    have := (hinv.1 i).mpr hfc
    simp [GridView.activeFetch, hl, FetchLoop.active, hd] at this

/-- The statement of `at_most_one_active_fetch` in the state reached when
`Reset` interrupts the initial fetch of `NewGridView` after three steps and
starts its own: goroutine 0 is cancelled, goroutine 1 is the active one. -/
theorem at_most_one_active_fetch_witness :
    ∃ g1, (NewGridView (some (sliceIterator sample21))).exec
        [Action.fetchStep 0, Action.fetchStep 0, Action.fetchStep 0,
          Action.resetLocked (some (sliceIterator (mkItems ["A", "B"]))),
          Action.checkFetchMoreItems 36] = some g1 ∧
      Reachable g1 ∧ g1.fetchCancel = some 1 ∧
      g1.activeFetch 0 = false ∧ g1.activeFetch 1 = true ∧
      (∀ i j, g1.activeFetch i = true → g1.activeFetch j = true → i = j) ∧
      (g1.fetchCancel.isSome = true ↔ ∃ i, g1.activeFetch i = true) := by
  obtain ⟨g1, h1⟩ : ∃ g1, (NewGridView (some (sliceIterator sample21))).exec
      [Action.fetchStep 0, Action.fetchStep 0, Action.fetchStep 0,
        Action.resetLocked (some (sliceIterator (mkItems ["A", "B"]))),
        Action.checkFetchMoreItems 36] = some g1 := ⟨_, rfl⟩
  have hr : Reachable g1 :=
    reachable_exec _ _ _ (Reachable.stream (some (sliceIterator sample21))) h1
  have hv : ((NewGridView (some (sliceIterator sample21))).exec
      [Action.fetchStep 0, Action.fetchStep 0, Action.fetchStep 0,
        Action.resetLocked (some (sliceIterator (mkItems ["A", "B"]))),
        Action.checkFetchMoreItems 36]).map
        (fun g => (g.fetchCancel, g.activeFetch 0, g.activeFetch 1))
      = some (some 1, false, true) := by decide
  rw [h1] at hv
  simp only [Option.map_some', Option.some.injEq, Prod.mk.injEq] at hv
  have h := at_most_one_active_fetch g1 hr
  exact ⟨g1, h1, hr, hv.1, hv.2.1, hv.2.2, h.1, h.2.1⟩

/-! ## One generation: no fetch left over from an earlier one -/

theorem newGridView_settled (st : GridViewState) : (newGridView st).Settled := by
  intro i l h
  simp [newGridView] at h

theorem settled_facts (g : GridView) (hq : g.Settled) (i : Nat) (l : FetchLoop)
    (hl : g.fetches i = some l) (hpc : l.pc ≠ FetchPC.exited) :
    g.fetchCancel = some i ∧ l.ctxDone = false ∧ g.pending = l.pc.held ∧
    ∀ j l1, j ≠ i → g.fetches j = some l1 → l1.pc = FetchPC.exited := by
  obtain ⟨hfc, hctx⟩ := hq i l hl hpc
  refine ⟨hfc, hctx, by simp [GridView.pending, hfc, hl], ?_⟩
  intro j l1 hj hl1
  by_contra hne
  have := (hq j l1 hl1 hne).1
  rw [hfc] at this
  exact hj (Option.some.inj this).symm

/-- A step of the active fetch that moves its program point and may change the
store, but neither the table of the other goroutines nor `fetchCancel`. -/
theorem settled_move (g g0 : GridView) (i : Nat) (l l1 : FetchLoop)
    (new : List (List GridViewItemModel)) (hq : g.Settled)
    (hl : g.fetches i = some l) (hpc : l.pc ≠ FetchPC.exited)
    (hfs : g0.fetches = g.fetches) (hfc : g0.fetchCancel = g.fetchCancel)
    (hctx : l1.ctxDone = l.ctxDone) (hlog : g0.nextNLog = g.nextNLog ++ new)
    (hitems : g0.items ++ l1.pc.held = g.items ++ l.pc.held ++ new.flatten) :
    (g0.setFetch i l1).Settled ∧ ∃ new, g.AppendsPulled (g0.setFetch i l1) new := by
  obtain ⟨hfci, hopen, hpend, _⟩ := settled_facts g hq i l hl hpc
  constructor
  · intro j l2 hl2 hpc2
    by_cases hj : j = i
    · subst hj
      have : l1 = l2 := by simpa [GridView.setFetch] using hl2
      subst this
      exact ⟨hfc.trans hfci, hctx.trans hopen⟩
    · have hl2g : g.fetches j = some l2 := by
        simpa [GridView.setFetch, hj, hfs] using hl2
      have := hq j l2 hl2g hpc2
      exact ⟨hfc.trans this.1, this.2⟩
  · have hp : (g0.setFetch i l1).pending = l1.pc.held := by
      simp [GridView.pending, GridView.setFetch, hfc, hfci]
    refine ⟨new, hlog, ?_⟩
    rw [hp, hpend]
    exact hitems

theorem fetchStep_settled (g g1 : GridView) (i : Nat) (hq : g.Settled)
    (hs : g.fetchStep i = some g1) :
    g1.Settled ∧ ∃ new, g.AppendsPulled g1 new := by
  unfold GridView.fetchStep at hs
  split at hs
  · cases hs; exact ⟨hq, [], by simp [GridView.AppendsPulled]⟩
  · rename_i l hl
    by_cases hex : l.pc = FetchPC.exited
    · simp only [hex] at hs
      cases hs; exact ⟨hq, [], by simp [GridView.AppendsPulled]⟩
    obtain ⟨hfci, hopen, hpend, hothers⟩ := settled_facts g hq i l hl hex
    split at hs
    · rename_i hpc
      split at hs <;> cases hs <;>
        exact settled_move g _ i l _ [] hq hl hex rfl rfl rfl (by simp)
          (by simp [hpc, FetchPC.held])
    · rename_i n hpc
      split at hs <;> cases hs <;>
        exact settled_move g _ i l _ [] hq hl hex rfl rfl rfl (by simp)
          (by simp [hpc, FetchPC.held])
    · rename_i n hpc
      split at hs
      · cases hs
      · split at hs
        · cases hs
        · rename_i it hit items it1 hnext
          cases hs
          exact settled_move g _ i l _ [items] hq hl hex rfl rfl rfl rfl
            (by simp [hpc, FetchPC.held])
    · rename_i n items hpc
      rw [hopen] at hs
      simp only [Bool.false_eq_true, if_false] at hs
      cases hs
      exact settled_move g _ i l _ [] hq hl hex rfl rfl hopen.symm (by simp)
        (by simp [hpc, FetchPC.held])
    · rename_i n items hpc
      cases hs
      exact settled_move g _ i l _ [] hq hl hex rfl rfl rfl (by simp)
        (by simp [hpc, FetchPC.held])
    · rename_i n items hpc
      cases hs
      refine settled_move g _ i l _ [] hq hl hex ?_ ?_ rfl ?_ ?_
      · split <;> rfl
      · split <;> rfl
      · split <;> simp
      · split <;> simp [hpc, FetchPC.held]
    · rename_i hpc
      have hcf : g.cancelFetch = { g with
          fetches := fun j =>
            if j = i then (g.fetches j).map (fun l => { l with ctxDone := true })
            else g.fetches j
          fetchCancel := none } := by
        simp [GridView.cancelFetch, hfci]
      rw [hcf] at hs
      simp only [hl, if_true, Option.map_some'] at hs
      cases hs
      refine ⟨?_, [], ?_⟩
      · intro j l2 hl2 hpc2
        exfalso
        by_cases hj : j = i
        · subst hj
          have : l2.pc = FetchPC.exited := by
            have h := hl2
            simp [GridView.setFetch] at h
            rw [← h]
          exact hpc2 this
        · have hl2g : g.fetches j = some l2 := by
            simpa [GridView.setFetch, hj] using hl2
          exact hpc2 (hothers j l2 hj hl2g)
      · constructor
        · simp [GridView.setFetch]
        · rw [hpend, hpc]
          simp [GridView.pending, GridView.setFetch, FetchPC.held]
    · rename_i hpc
      exact absurd hpc hex

theorem checkFetchMoreItems_idle (g : GridView) (count : Int)
    (h : g.done = true ∨ g.fetchCancel.isSome = true) : g.checkFetchMoreItems count = g := by
  have hc : (g.done || g.fetchCancel.isSome) = true := by
    rcases h with h | h <;> simp [h]
  simp only [GridView.checkFetchMoreItems, hc, if_true]

theorem checkFetchMoreItems_settled (g : GridView) (count : Int) (hq : g.Settled) :
    (g.checkFetchMoreItems count).Settled ∧
      g.AppendsPulled (g.checkFetchMoreItems count) [] := by
  unfold GridView.checkFetchMoreItems
  split
  · exact ⟨hq, by simp [GridView.AppendsPulled]⟩
  · rename_i hc
    have hfc : g.fetchCancel = none := by
      cases hf : g.fetchCancel with
      | none => rfl
      | some k => simp [hf] at hc
    split
    · refine ⟨fun i l hl hpc => hq i l hl hpc, ?_⟩
      simp [GridView.AppendsPulled, GridView.pending]
    · constructor
      · intro j l hl hpc
        by_cases hj : j = g.nextFetch
        · subst hj
          have : l = ⟨count, false, FetchPC.outerCheck⟩ := by
            have h := hl
            simp at h
            exact h.symm
          subst this
          exact ⟨rfl, rfl⟩
        · have hlg : g.fetches j = some l := by simpa [hj] using hl
          have := (hq j l hlg hpc).1
          rw [hfc] at this; cases this
      · simp [GridView.AppendsPulled, GridView.pending, hfc, FetchPC.held]

theorem appendsPulled_trans (g g1 g2 : GridView) (new1 new2 : List (List GridViewItemModel))
    (h1 : g.AppendsPulled g1 new1) (h2 : g1.AppendsPulled g2 new2) :
    g.AppendsPulled g2 (new1 ++ new2) := by
  obtain ⟨a1, b1⟩ := h1
  obtain ⟨a2, b2⟩ := h2
  refine ⟨by rw [a2, a1, List.append_assoc], ?_⟩
  rw [b2, b1, List.flatten_append, List.append_assoc]

theorem step_settled (g g1 : GridView) (a : Action) (hq : g.Settled)
    (ha : a.isReset = false) (hs : g.step a = some g1) :
    g1.Settled ∧ ∃ new, g.AppendsPulled g1 new := by
  cases a with
  | fetchStep i => exact fetchStep_settled g g1 i hq hs
  | showRow itemIdx =>
    cases hs
    obtain ⟨hi, _, _, hfc, hfs, _, hlog, _⟩ := noteShown_frame g itemIdx
    refine ⟨fun i l hl hpc => ?_, [], ?_⟩
    · rw [hfs] at hl; rw [hfc]; exact hq i l hl hpc
    · simp [GridView.AppendsPulled, GridView.pending, hi, hfc, hfs, hlog]
  | nearEnd itemIdx =>
    cases hs
    simp only [GridView.fetchIfNearEnd]
    split
    · exact ⟨(checkFetchMoreItems_settled g 20 hq).1, [], (checkFetchMoreItems_settled g 20 hq).2⟩
    · exact ⟨hq, [], by simp [GridView.AppendsPulled]⟩
  | checkFetchMoreItems count =>
    cases hs
    exact ⟨(checkFetchMoreItems_settled g count hq).1, [],
      (checkFetchMoreItems_settled g count hq).2⟩
  | Clear => cases ha
  | resetLocked iter => cases ha
  | resetFromStateLocked state => cases ha
  | resetFixedLocked items => cases ha

theorem exec_settled (acts : List Action) :
    ∀ g g1 : GridView, g.Settled → (∀ a, a ∈ acts → a.isReset = false) →
      g.exec acts = some g1 → g1.Settled ∧ ∃ new, g.AppendsPulled g1 new := by
  induction acts with
  | nil =>
    intro g g1 hq _ h
    cases h
    exact ⟨hq, [], by simp [GridView.AppendsPulled]⟩
  | cons a as ih =>
    intro g g1 hq hacts h
    simp only [GridView.exec] at h
    cases hs : g.step a with
    | none => rw [hs] at h; cases h
    | some g2 =>
      rw [hs] at h
      obtain ⟨hq2, new1, hp1⟩ := step_settled g g2 a hq (hacts a (List.mem_cons_self a as)) hs
      obtain ⟨hq1, new2, hp2⟩ :=
        ih g2 g1 hq2 (fun b hb => hacts b (List.mem_cons_of_mem a hb)) h
      exact ⟨hq1, new1 ++ new2, appendsPulled_trans g g2 g1 new1 new2 hp1 hp2⟩

/-- What a step that is not a reset does to `items`: nothing, or the append of
the batch held by the stepping goroutine at its append statement. -/
theorem step_items (g g1 : GridView) (a : Action) (ha : a.isReset = false)
    (hs : g.step a = some g1) :
    g1.items = g.items ∨
      ∃ i l n batch, a = Action.fetchStep i ∧ g.fetches i = some l ∧
        l.pc = FetchPC.appendItems n batch ∧ g1.items = g.items ++ batch := by
  cases a with
  | fetchStep i =>
    simp only [GridView.step, GridView.fetchStep] at hs
    split at hs
    · cases hs; exact Or.inl rfl
    · rename_i l hl
      split at hs
      · split at hs <;> cases hs <;> exact Or.inl rfl
      · split at hs <;> cases hs <;> exact Or.inl rfl
      · split at hs
        · cases hs
        · split at hs
          · cases hs
          · cases hs; exact Or.inl rfl
      · split at hs <;> cases hs <;> exact Or.inl rfl
      · rename_i n items hpc
        cases hs
        exact Or.inr ⟨i, l, n, items, rfl, hl, hpc, rfl⟩
      · cases hs
        left
        show (if _ then _ else _ : GridView).items = g.items
        split <;> rfl
      · have hst := cancelFetch_state g
        split at hs <;> cases hs <;> exact Or.inl (congrArg GridViewState.items hst)
      · cases hs; exact Or.inl rfl
  | showRow itemIdx => cases hs; exact Or.inl (noteShown_frame g itemIdx).1
  | nearEnd itemIdx =>
    cases hs
    left
    simp only [GridView.fetchIfNearEnd, GridView.checkFetchMoreItems]
    split
    · split
      · rfl
      · split <;> rfl
    · rfl
  | checkFetchMoreItems count =>
    cases hs
    left
    simp only [GridView.checkFetchMoreItems]
    split
    · rfl
    · split <;> rfl
  | Clear => cases ha
  | resetLocked iter => cases ha
  | resetFromStateLocked state => cases ha
  | resetFixedLocked items => cases ha

theorem exec_items_prefix (acts : List Action) :
    ∀ g g1 : GridView, (∀ a, a ∈ acts → a.isReset = false) →
      g.exec acts = some g1 → g.items <+: g1.items := by
  induction acts with
  | nil => intro g g1 _ h; cases h; exact List.prefix_refl _
  | cons a as ih =>
    intro g g1 hacts h
    simp only [GridView.exec] at h
    cases hs : g.step a with
    | none => rw [hs] at h; cases h
    | some g2 =>
      rw [hs] at h
      have h1 : g.items <+: g2.items := by
        rcases step_items g g2 a (hacts a (List.mem_cons_self a as)) hs with e | ⟨_, _, _, b, _, _, _, e⟩
        · rw [e]
        · rw [e]; exact List.prefix_append _ _
      exact h1.trans (ih g2 g1 (fun b hb => hacts b (List.mem_cons_of_mem a hb)) h)

/-! ## Held batches come from `NextN` -/

theorem heldLogged_same_pcs (g g1 : GridView) (h : g.HeldLogged)
    (hlog : g1.nextNLog = g.nextNLog)
    (hpcs : ∀ j l1, g1.fetches j = some l1 → ∃ l, g.fetches j = some l ∧ l.pc = l1.pc) :
    g1.HeldLogged := by
  intro j l1 n b hl1 hpc
  obtain ⟨l, hl, e⟩ := hpcs j l1 hl1
  rw [hlog]
  exact h j l n b hl (by rw [e]; exact hpc)

theorem heldLogged_setFetch (g g0 : GridView) (i : Nat) (l1 : FetchLoop) (h : g.HeldLogged)
    (hfs : g0.fetches = g.fetches) (hlog : ∃ new, g0.nextNLog = g.nextNLog ++ new)
    (hnew : ∀ n b, (l1.pc = FetchPC.selectCtx n b ∨ l1.pc = FetchPC.appendItems n b) →
      b ∈ g0.nextNLog) :
    (g0.setFetch i l1).HeldLogged := by
  intro j l2 n b hl2 hpc
  by_cases hj : j = i
  · subst hj
    have : l1 = l2 := by simpa [GridView.setFetch] using hl2
    subst this
    exact hnew n b hpc
  · have hl2g : g.fetches j = some l2 := by simpa [GridView.setFetch, hj, hfs] using hl2
    obtain ⟨new, e⟩ := hlog
    show b ∈ g0.nextNLog
    rw [e]
    exact List.mem_append_left _ (h j l2 n b hl2g hpc)

theorem cancelFetch_pcs (g : GridView) :
    g.cancelFetch.nextNLog = g.nextNLog ∧
    ∀ j l1, g.cancelFetch.fetches j = some l1 → ∃ l, g.fetches j = some l ∧ l.pc = l1.pc := by
  unfold GridView.cancelFetch
  cases hf : g.fetchCancel with
  | none => exact ⟨rfl, fun j l1 h => ⟨l1, h, rfl⟩⟩
  | some k =>
    refine ⟨rfl, fun j l1 h => ?_⟩
    by_cases hj : j = k
    · subst hj
      cases hg : g.fetches j with
      | none => simp [hg] at h
      | some l =>
        simp [hg] at h
        exact ⟨l, rfl, by rw [← h]⟩
    · exact ⟨l1, by simpa [hj] using h, rfl⟩

theorem fetchStep_heldLogged (g g1 : GridView) (i : Nat) (h : g.HeldLogged)
    (hs : g.fetchStep i = some g1) : g1.HeldLogged := by
  unfold GridView.fetchStep at hs
  split at hs
  · cases hs; exact h
  · rename_i l hl
    split at hs
    · split at hs <;> cases hs <;>
        exact heldLogged_setFetch g _ i _ h rfl ⟨[], by simp⟩ (by simp)
    · split at hs <;> cases hs <;>
        exact heldLogged_setFetch g _ i _ h rfl ⟨[], by simp⟩ (by simp)
    · split at hs
      · cases hs
      · split at hs
        · cases hs
        · rename_i it hit items it1 hnext
          cases hs
          exact heldLogged_setFetch g _ i _ h rfl ⟨[items], rfl⟩
            (by
              intro n b hb
              simp at hb
              simp [hb.2])
    · rename_i n items hpc
      split at hs
      · cases hs
        exact heldLogged_setFetch g _ i _ h rfl ⟨[], by simp⟩ (by simp)
      · cases hs
        refine heldLogged_setFetch g _ i _ h rfl ⟨[], by simp⟩ ?_
        intro n1 b hb
        simp at hb
        exact h i l n items hl (Or.inl hpc) |> fun m => hb.2 ▸ m
    · cases hs
      exact heldLogged_setFetch g _ i _ h rfl ⟨[], by simp⟩ (by simp)
    · cases hs
      refine heldLogged_setFetch g _ i _ h ?_ ⟨[], ?_⟩ (by simp)
      · split <;> rfl
      · split <;> simp
    · obtain ⟨c1, c2⟩ := cancelFetch_pcs g
      have hc : g.cancelFetch.HeldLogged := heldLogged_same_pcs g _ h c1 c2
      dsimp only at hs
      split at hs
      · cases hs; exact hc
      · cases hs
        exact heldLogged_setFetch g.cancelFetch _ i _ hc rfl ⟨[], by simp⟩ (by simp)
    · cases hs; exact h

theorem checkFetchMoreItems_heldLogged (g : GridView) (count : Int) (h : g.HeldLogged) :
    (g.checkFetchMoreItems count).HeldLogged := by
  unfold GridView.checkFetchMoreItems
  split
  · exact h
  · split
    · exact heldLogged_same_pcs g _ h rfl (fun j l1 hl1 => ⟨l1, hl1, rfl⟩)
    · intro j l1 n b hl1 hpc
      by_cases hj : j = g.nextFetch
      · subst hj
        have : l1 = ⟨count, false, FetchPC.outerCheck⟩ := by
          have h2 := hl1
          simp at h2
          exact h2.symm
        subst this
        simp at hpc
      · exact h j l1 n b (by simpa [hj] using hl1) hpc

theorem step_heldLogged (g g1 : GridView) (a : Action) (h : g.HeldLogged)
    (hs : g.step a = some g1) : g1.HeldLogged := by
  obtain ⟨c1, c2⟩ := cancelFetch_pcs g
  cases a with
  | fetchStep i => exact fetchStep_heldLogged g g1 i h hs
  | showRow itemIdx =>
    cases hs
    obtain ⟨_, _, _, _, hfs, _, hlog, _⟩ := noteShown_frame g itemIdx
    exact heldLogged_same_pcs g _ h hlog (fun j l1 hl1 => ⟨l1, by rw [← hfs]; exact hl1, rfl⟩)
  | nearEnd itemIdx =>
    cases hs
    simp only [GridView.fetchIfNearEnd]
    split
    · exact checkFetchMoreItems_heldLogged g 20 h
    · exact h
  | checkFetchMoreItems count => cases hs; exact checkFetchMoreItems_heldLogged g count h
  | Clear => cases hs; exact heldLogged_same_pcs g _ h c1 c2
  | resetLocked iter => cases hs; exact heldLogged_same_pcs g _ h c1 c2
  | resetFromStateLocked state => cases hs; exact heldLogged_same_pcs g _ h c1 c2
  | resetFixedLocked items => cases hs; exact heldLogged_same_pcs g _ h c1 c2

theorem newGridView_heldLogged (st : GridViewState) : (newGridView st).HeldLogged := by
  intro i l n b hl
  simp [newGridView] at hl

theorem reachable_heldLogged (g : GridView) (h : Reachable g) : g.HeldLogged := by
  induction h with
  | fixed items => exact newGridView_heldLogged _
  | stream iter => exact checkFetchMoreItems_heldLogged _ 36 (newGridView_heldLogged _)
  | fromState state => exact newGridView_heldLogged _
  | step a _ hs ih => exact step_heldLogged _ _ a ih hs

/-! ## Appends within a generation -/

/-- Appends along any schedule without a reset, from any reachable state: `items`
only grows at its end (the old `items` is a prefix of the new one, so its
length does not decrease and every earlier element keeps its index); a step
changes `items` only by appending the batch the stepping goroutine holds at its
append statement, a batch some `NextN` call returned; and in a generation with
no fetch left over from an earlier one, `items` followed by the batch in flight
is the old `items` (and batch in flight) followed by the batches pulled since,
in pull order, nothing dropped, duplicated or reordered. -/
theorem items_append_only (g g1 : GridView) (acts : List Action) (hg : Reachable g)
    (hacts : ∀ a, a ∈ acts → a.isReset = false) (hrun : g.exec acts = some g1) :
    g.items <+: g1.items ∧ g.items.length ≤ g1.items.length ∧
    (∀ k, k < g.items.length → g1.items[k]? = g.items[k]?) ∧
    (∀ a g2, a.isReset = false → g1.step a = some g2 →
      g2.items = g1.items ∨
        ∃ i l n batch, a = Action.fetchStep i ∧ g1.fetches i = some l ∧
          l.pc = FetchPC.appendItems n batch ∧ batch ∈ g1.nextNLog ∧
          g2.items = g1.items ++ batch) ∧
    (g.Settled → g1.Settled ∧ ∃ new, g1.nextNLog = g.nextNLog ++ new ∧
      g1.items ++ g1.pending = g.items ++ g.pending ++ new.flatten) := by
  have hpre := exec_items_prefix acts g g1 hacts hrun
  have hlogged := reachable_heldLogged g1 (reachable_exec acts g g1 hg hrun)
  refine ⟨hpre, hpre.length_le, ?_, ?_, ?_⟩
  · intro k hk
    obtain ⟨t, ht⟩ := hpre
    rw [← ht]
    exact List.getElem?_append_left hk
  · intro a g2 ha hs
    rcases step_items g1 g2 a ha hs with e | ⟨i, l, n, b, e1, e2, e3, e4⟩
    · exact Or.inl e
    · exact Or.inr ⟨i, l, n, b, e1, e2, e3, hlogged i l n b e2 (Or.inr e3), e4⟩
  · intro hq
    obtain ⟨hq1, new, hp⟩ := exec_settled acts g g1 hq hacts hrun
    exact ⟨hq1, new, hp.1, hp.2⟩

/-- The statement of `items_append_only` for the initial fetch of `NewGridView`
on a stream of 21 records, interleaved with row updates, after the second
batch has been pulled and the first appended. -/
theorem items_append_only_witness :
    ∃ g1, (NewGridView (some (sliceIterator sample21))).exec
        [Action.fetchStep 0, Action.fetchStep 0, Action.showRow 3, Action.fetchStep 0,
          Action.fetchStep 0, Action.nearEnd 3, Action.fetchStep 0, Action.fetchStep 0,
          Action.fetchStep 0, Action.fetchStep 0] = some g1 ∧
      Reachable (NewGridView (some (sliceIterator sample21))) ∧
      (NewGridView (some (sliceIterator sample21))).Settled ∧
      g1.items = sample21.take 6 ∧ g1.pending = (sample21.drop 6).take 6 ∧
      ∃ new, g1.nextNLog = (NewGridView (some (sliceIterator sample21))).nextNLog ++ new ∧
        g1.items ++ g1.pending =
          (NewGridView (some (sliceIterator sample21))).items ++
            (NewGridView (some (sliceIterator sample21))).pending ++ new.flatten := by
  obtain ⟨g1, h1⟩ : ∃ g1, (NewGridView (some (sliceIterator sample21))).exec
      [Action.fetchStep 0, Action.fetchStep 0, Action.showRow 3, Action.fetchStep 0,
        Action.fetchStep 0, Action.nearEnd 3, Action.fetchStep 0, Action.fetchStep 0,
        Action.fetchStep 0, Action.fetchStep 0] = some g1 := ⟨_, rfl⟩
  have hv : ((NewGridView (some (sliceIterator sample21))).exec
      [Action.fetchStep 0, Action.fetchStep 0, Action.showRow 3, Action.fetchStep 0,
        Action.fetchStep 0, Action.nearEnd 3, Action.fetchStep 0, Action.fetchStep 0,
        Action.fetchStep 0, Action.fetchStep 0]).map (fun g => (g.items, g.pending))
      = some (sample21.take 6, (sample21.drop 6).take 6) := by decide
  rw [h1] at hv
  simp only [Option.map_some', Option.some.injEq, Prod.mk.injEq] at hv
  have hr : Reachable (NewGridView (some (sliceIterator sample21))) := Reachable.stream _
  have hq : (NewGridView (some (sliceIterator sample21))).Settled :=
    (checkFetchMoreItems_settled _ 36 (newGridView_settled _)).1
  have h := items_append_only (NewGridView (some (sliceIterator sample21))) g1 _ hr
    (by decide) h1
  exact ⟨g1, h1, hr, hq, hv.1, hv.2, (h.2.2.2.2 hq).2⟩

/-! ## Exhaustion -/

theorem exhausting_done_setFetch (g0 : GridView) (i k : Nat) (l1 : FetchLoop)
    (hd : g0.done = true)
    (hp : ∀ j l, j ≠ k → g0.fetches j = some l → l.pc.pulling = false)
    (h1 : l1.pc.pulling = false) : (g0.setFetch k l1).Exhausting i := by
  refine Or.inl ⟨hd, fun j l hl => ?_⟩
  by_cases hj : j = k
  · subst hj
    have : l1 = l := by simpa [GridView.setFetch] using hl
    subst this; exact h1
  · exact hp j l hj (by simpa [GridView.setFetch, hj] using hl)

theorem exhausting_short_setFetch (g g0 : GridView) (i : Nat) (l1 : FetchLoop)
    (hfc : g0.fetchCancel = some i) (hfs : g0.fetches = g.fetches)
    (hoth : ∀ j l, j ≠ i → g.fetches j = some l → l.pc = FetchPC.exited)
    (h1 : l1.pc.shortBatch = true) (h2 : l1.ctxDone = false) :
    (g0.setFetch i l1).Exhausting i := by
  refine Or.inr ⟨hfc, ⟨l1, by simp [GridView.setFetch], h1, h2⟩, fun j l hj hl => ?_⟩
  exact hoth j l hj (by simpa [GridView.setFetch, hj, hfs] using hl)

/-- Once the iterator has signalled exhaustion, a goroutine step does not panic,
makes no `NextN` call and keeps the exhaustion state. -/
theorem fetchStep_exhausting (g : GridView) (i k : Nat) (he : g.Exhausting i) :
    ∃ g1, g.fetchStep k = some g1 ∧ g1.Exhausting i ∧ g1.nextNLog = g.nextNLog ∧
      g1.iter = g.iter := by
  rcases he with ⟨hd, hp⟩ | ⟨hfc, ⟨l, hl, hshort, hopen⟩, hoth⟩
  · have hp2 : ∀ j l, j ≠ k → g.fetches j = some l → l.pc.pulling = false :=
      fun j l _ h => hp j l h
    cases hk : g.fetches k with
    | none => exact ⟨g, by simp [GridView.fetchStep, hk], Or.inl ⟨hd, hp⟩, rfl, rfl⟩
    | some l =>
      have hpl := hp k l hk
      cases hpc : l.pc with
      | outerCheck =>
        exact ⟨g.setFetch k { l with pc := FetchPC.finish },
          by simp [GridView.fetchStep, hk, hpc, hd],
          exhausting_done_setFetch g i k { l with pc := FetchPC.finish } hd hp2 rfl, rfl, rfl⟩
      | innerCheck n =>
        exact ⟨g.setFetch k { l with pc := FetchPC.outerCheck },
          by simp [GridView.fetchStep, hk, hpc, hd],
          exhausting_done_setFetch g i k { l with pc := FetchPC.outerCheck } hd hp2 rfl,
          rfl, rfl⟩
      | callNextN n => simp [hpc, FetchPC.pulling] at hpl
      | selectCtx n items => simp [hpc, FetchPC.pulling] at hpl
      | appendItems n items => simp [hpc, FetchPC.pulling] at hpl
      | afterAppend n items => simp [hpc, FetchPC.pulling] at hpl
      | finish =>
        obtain ⟨c1, c2⟩ := cancelFetch_pcs g
        have hst := cancelFetch_state g
        have hd1 : g.cancelFetch.done = true := (congrArg GridViewState.done hst).trans hd
        have hp1 : ∀ j l, g.cancelFetch.fetches j = some l → l.pc.pulling = false := by
          intro j l1 hl1
          obtain ⟨l0, hl0, e⟩ := c2 j l1 hl1
          rw [← e]; exact hp j l0 hl0
        cases hk1 : g.cancelFetch.fetches k with
        | none =>
          exact ⟨g.cancelFetch, by simp [GridView.fetchStep, hk, hpc, hk1],
            Or.inl ⟨hd1, hp1⟩, c1, congrArg GridViewState.iter hst⟩
        | some l1 =>
          exact ⟨g.cancelFetch.setFetch k { l1 with pc := FetchPC.exited },
            by simp [GridView.fetchStep, hk, hpc, hk1],
            exhausting_done_setFetch g.cancelFetch i k { l1 with pc := FetchPC.exited } hd1
              (fun j l _ h => hp1 j l h) rfl,
            c1, congrArg GridViewState.iter hst⟩
      | exited => exact ⟨g, by simp [GridView.fetchStep, hk, hpc], Or.inl ⟨hd, hp⟩, rfl, rfl⟩
  · have hB : g.Exhausting i := Or.inr ⟨hfc, ⟨l, hl, hshort, hopen⟩, hoth⟩
    by_cases hki : k = i
    · subst hki
      cases hpc : l.pc with
      | outerCheck => simp [hpc, FetchPC.shortBatch] at hshort
      | innerCheck n => simp [hpc, FetchPC.shortBatch] at hshort
      | callNextN n => simp [hpc, FetchPC.shortBatch] at hshort
      | selectCtx n items =>
        have hs2 : (FetchPC.appendItems n items).shortBatch = true := by
          simpa [hpc, FetchPC.shortBatch] using hshort
        exact ⟨g.setFetch k { l with pc := FetchPC.appendItems n items },
          by simp [GridView.fetchStep, hl, hpc, hopen],
          exhausting_short_setFetch g g k { l with pc := FetchPC.appendItems n items } hfc rfl
            hoth hs2 hopen, rfl, rfl⟩
      | appendItems n items =>
        have hs2 : (FetchPC.afterAppend n items).shortBatch = true := by
          simpa [hpc, FetchPC.shortBatch] using hshort
        exact ⟨({ g with items := g.items ++ items } : GridView).setFetch k
            { l with pc := FetchPC.afterAppend n items },
          by simp [GridView.fetchStep, hl, hpc],
          exhausting_short_setFetch g { g with items := g.items ++ items } k
            { l with pc := FetchPC.afterAppend n items } hfc rfl hoth hs2 hopen, rfl, rfl⟩
      | afterAppend n items =>
        have hlt : (items.length : Int) < batchFetchSize := by
          simpa [hpc, FetchPC.shortBatch] using hshort
        refine ⟨({ g with done := true } : GridView).setFetch k
            { l with pc := FetchPC.innerCheck (n + items.length) }, ?_, ?_, rfl, rfl⟩
        · simp [GridView.fetchStep, hl, hpc, hlt]
        · refine exhausting_done_setFetch _ k k _ rfl ?_ rfl
          intro j l2 hj hl2
          have h3 : g.fetches j = some l2 := hl2
          rw [hoth j l2 hj h3]; rfl
      | finish => simp [hpc, FetchPC.shortBatch] at hshort
      | exited => simp [hpc, FetchPC.shortBatch] at hshort
    · cases hk : g.fetches k with
      | none => exact ⟨g, by simp [GridView.fetchStep, hk], hB, rfl, rfl⟩
      | some l2 =>
        have := hoth k l2 hki hk
        exact ⟨g, by simp [GridView.fetchStep, hk, this], hB, rfl, rfl⟩

theorem step_exhausting (g : GridView) (i : Nat) (a : Action) (he : g.Exhausting i)
    (ha : a.isReset = false) :
    ∃ g1, g.step a = some g1 ∧ g1.Exhausting i ∧ g1.nextNLog = g.nextNLog ∧
      g1.iter = g.iter := by
  have hidle : ∀ count, g.checkFetchMoreItems count = g := by
    intro count
    apply checkFetchMoreItems_idle
    rcases he with ⟨hd, _⟩ | ⟨hfc, _, _⟩
    · exact Or.inl hd
    · exact Or.inr (by rw [hfc]; rfl)
  cases a with
  | fetchStep k => exact fetchStep_exhausting g i k he
  | showRow itemIdx =>
    obtain ⟨_, hd, hit, hfc, hfs, _, hlog, _⟩ := noteShown_frame g itemIdx
    refine ⟨g.noteShown itemIdx, rfl, ?_, hlog, hit⟩
    unfold GridView.Exhausting
    rw [hd, hfc, hfs]
    exact he
  | nearEnd itemIdx =>
    refine ⟨g, ?_, he, rfl, rfl⟩
    simp only [GridView.step, GridView.fetchIfNearEnd, hidle, ite_self]
  | checkFetchMoreItems count =>
    exact ⟨g, by simp only [GridView.step, hidle], he, rfl, rfl⟩
  | Clear => cases ha
  | resetLocked iter => cases ha
  | resetFromStateLocked state => cases ha
  | resetFixedLocked items => cases ha

theorem exec_exhausting (i : Nat) (acts : List Action) :
    ∀ g : GridView, g.Exhausting i → (∀ a, a ∈ acts → a.isReset = false) →
      ∃ g1, g.exec acts = some g1 ∧ g1.Exhausting i ∧ g1.nextNLog = g.nextNLog ∧
        g1.iter = g.iter := by
  induction acts with
  | nil => intro g he _; exact ⟨g, rfl, he, rfl, rfl⟩
  | cons a as ih =>
    intro g he hacts
    obtain ⟨g1, hs, he1, hlog1, hit1⟩ :=
      step_exhausting g i a he (hacts a (List.mem_cons_self a as))
    obtain ⟨g2, hs2, he2, hlog2, hit2⟩ :=
      ih g1 he1 (fun b hb => hacts b (List.mem_cons_of_mem a hb))
    exact ⟨g2, by simp only [GridView.exec, hs, hs2], he2, hlog2.trans hlog1,
      hit2.trans hit1⟩

/-- Exhaustion in a generation with no fetch left over from an earlier one: when
the `NextN(6)` call of a fetch goroutine returns fewer than 6 records: the
goroutine, if it runs on, appends the batch and sets `done` within three steps;
and along every schedule of goroutine steps, row updates and
`checkFetchMoreItems` calls that contains no reset, no step panics, no further
`NextN` call is made (the log of calls and the iterator stay as they are), and
at every point either `done` is set or the goroutine still holds a short batch
ahead of its short-batch test. -/
theorem exhaustion_is_final (g : GridView) (i : Nat) (l : FetchLoop) (n : Int)
    (it it1 : GridViewIterator) (batch : List GridViewItemModel)
    (hq : g.Settled) (hl : g.fetches i = some l) (hpc : l.pc = FetchPC.callNextN n)
    (hit : g.iter = some it) (hnext : it.NextN batchFetchSize = some (batch, it1))
    (hshort : (batch.length : Int) < batchFetchSize) :
    ∃ g1, g.fetchStep i = some g1 ∧ g1.nextNLog = g.nextNLog ++ [batch] ∧
      (∃ g3, g1.runFetch i 3 = some g3 ∧ g3.items = g.items ++ batch ∧ g3.done = true) ∧
      ∀ acts, (∀ a, a ∈ acts → a.isReset = false) →
        ∃ g2, g1.exec acts = some g2 ∧ g2.nextNLog = g1.nextNLog ∧ g2.iter = g1.iter ∧
          (g2.done = true ∨ ∃ l2, g2.fetches i = some l2 ∧ l2.pc.shortBatch = true) := by
  have hex : l.pc ≠ FetchPC.exited := by rw [hpc]; simp
  obtain ⟨hfci, hopen, _, hoth⟩ := settled_facts g hq i l hl hex
  refine ⟨({ g with iter := some it1, nextNLog := g.nextNLog ++ [batch] } : GridView).setFetch i
      { l with pc := FetchPC.selectCtx n batch }, ?_, rfl, ?_, ?_⟩
  · simp [GridView.fetchStep, hl, hpc, hit, hnext]
  · refine ⟨({ g with
                  iter := some it1
                  nextNLog := g.nextNLog ++ [batch]
                  items := g.items ++ batch
                  done := true } : GridView).setFetch i
        { l with pc := FetchPC.innerCheck (n + batch.length) }, ?_, rfl, rfl⟩
    simp [runFetch_succ, runFetch_zero, GridView.fetchStep, GridView.setFetch, hopen, hshort]
    funext j
    by_cases hj : j = i <;> simp [hj]
  · intro acts hacts
    have he : (({ g with iter := some it1, nextNLog := g.nextNLog ++ [batch] } :
        GridView).setFetch i { l with pc := FetchPC.selectCtx n batch }).Exhausting i :=
      exhausting_short_setFetch g _ i _ hfci rfl hoth
        (by simpa [FetchPC.shortBatch] using hshort) hopen
    obtain ⟨g2, hs2, he2, hlog2, hit2⟩ := exec_exhausting i acts _ he hacts
    refine ⟨g2, hs2, hlog2, hit2, ?_⟩
    rcases he2 with ⟨hd, _⟩ | ⟨_, ⟨l2, hl2, hs, _⟩, _⟩
    · exact Or.inl hd
    · exact Or.inr ⟨l2, hl2, hs⟩

theorem fourthPullView_settled : fourthPullView.Settled := by
  intro i l hl _
  by_cases hi : i = 0
  · subst hi
    have : l = ⟨36, false, FetchPC.callNextN 18⟩ := by
      have h := hl
      simp [fourthPullView] at h
      exact h.symm
    subst this
    exact ⟨rfl, rfl⟩
  · simp [fourthPullView, hi] at hl

/-- The statement of `exhaustion_is_final` at the fourth `NextN` call of the
initial fetch on the 21-record stream, which returns the last 3 records. -/
theorem exhaustion_is_final_witness :
    ((NewGridView (some (sliceIterator sample21))).runFetch 0 17).map
        (fun g => (g.items, g.done, g.highestShown, g.fetchCancel, g.fetches 0, g.nextNLog))
      = some (fourthPullView.items, fourthPullView.done, fourthPullView.highestShown,
          fourthPullView.fetchCancel, fourthPullView.fetches 0, fourthPullView.nextNLog) ∧
    fourthPullView.Settled ∧
    ∃ g1, fourthPullView.fetchStep 0 = some g1 ∧
      g1.nextNLog = fourthPullView.nextNLog ++ [sample21.drop 18] ∧
      (∃ g3, g1.runFetch 0 3 = some g3 ∧ g3.items = fourthPullView.items ++ sample21.drop 18 ∧
        g3.done = true) ∧
      ∀ acts, (∀ a, a ∈ acts → a.isReset = false) →
        ∃ g2, g1.exec acts = some g2 ∧ g2.nextNLog = g1.nextNLog ∧ g2.iter = g1.iter ∧
          (g2.done = true ∨ ∃ l2, g2.fetches 0 = some l2 ∧ l2.pc.shortBatch = true) :=
  ⟨by rfl, fourthPullView_settled,
    exhaustion_is_final fourthPullView 0 ⟨36, false, FetchPC.callNextN 18⟩ 18
      (sliceIterator (sample21.drop 18)) (sliceIterator ((sample21.drop 18).drop 6))
      (sample21.drop 18) fourthPullView_settled rfl rfl rfl rfl (by decide)⟩

/-! ## A reset while a fetch is in flight -/

/-- **C4 (what the code does).** `NewGridView` on the 21-record stream; its fetch
goroutine appends two batches (12 records), pulls the third and passes its
`select` with the context still open (14 steps). `ResetFixed([A, B])` then
cancels it and installs `[A, B]` with `done` set. The goroutine's next step is
its append: `items` becomes `[A, B]` followed by the third batch of the old
iterator. When the reset comes one step earlier, before the `select`, the
goroutine returns without appending and `items` stays `[A, B]`. -/
theorem cancelled_fetch_appends_after_reset :
    ((NewGridView (some (sliceIterator sample21))).exec
        (List.replicate 14 (Action.fetchStep 0) ++ [Action.resetFixedLocked (mkItems ["A", "B"])])).map
        (fun g => (g.items, g.done, g.fetchCancel, g.fetches 0))
      = some (mkItems ["A", "B"], true, none,
          some ⟨36, true, FetchPC.appendItems 12 ((sample21.drop 12).take 6)⟩) ∧
    ((NewGridView (some (sliceIterator sample21))).exec
        (List.replicate 14 (Action.fetchStep 0) ++
          [Action.resetFixedLocked (mkItems ["A", "B"]), Action.fetchStep 0])).map
        (fun g => (g.items, g.done, g.fetchCancel))
      = some (mkItems ["A", "B"] ++ (sample21.drop 12).take 6, true, none) ∧
    ((NewGridView (some (sliceIterator sample21))).exec
        (List.replicate 13 (Action.fetchStep 0) ++
          [Action.resetFixedLocked (mkItems ["A", "B"]), Action.fetchStep 0, Action.fetchStep 0])).map
        (fun g => (g.items, g.done, g.fetchCancel, g.fetches 0))
      = some (mkItems ["A", "B"], true, none, some ⟨36, true, FetchPC.exited⟩) := by
  refine ⟨by decide, by decide, by decide⟩

/-! ## `highestShown` -/

theorem checkFetchMoreItems_highestShown (g : GridView) (count : Int) :
    (g.checkFetchMoreItems count).highestShown = g.highestShown := by
  unfold GridView.checkFetchMoreItems
  split
  · rfl
  · split <;> rfl

theorem fetchStep_highestShown (g g1 : GridView) (i : Nat) (hs : g.fetchStep i = some g1) :
    g1.highestShown = g.highestShown := by
  unfold GridView.fetchStep at hs
  split at hs
  · cases hs; rfl
  · split at hs
    · split at hs <;> cases hs <;> rfl
    · split at hs <;> cases hs <;> rfl
    · split at hs
      · cases hs
      · split at hs
        · cases hs
        · cases hs; rfl
    · split at hs <;> cases hs <;> rfl
    · cases hs; rfl
    · cases hs
      show (if _ then _ else _ : GridView).highestShown = g.highestShown
      split <;> rfl
    · have hst := cancelFetch_state g
      dsimp only at hs
      split at hs <;> cases hs <;> exact congrArg GridViewState.highestShown hst
    · cases hs; rfl

theorem step_highestShown (g g1 : GridView) (a : Action) (ha : a.isReset = false)
    (hs : g.step a = some g1) : g.highestShown ≤ g1.highestShown := by
  cases a with
  | fetchStep i => exact le_of_eq (fetchStep_highestShown g g1 i hs).symm
  | showRow itemIdx => cases hs; exact (noteShown_frame g itemIdx).2.2.2.2.2.2.2.2
  | nearEnd itemIdx =>
    cases hs
    simp only [GridView.fetchIfNearEnd]
    split
    · exact le_of_eq (checkFetchMoreItems_highestShown g 20).symm
    · exact le_refl _
  | checkFetchMoreItems count =>
    cases hs; exact le_of_eq (checkFetchMoreItems_highestShown g count).symm
  | Clear => cases ha
  | resetLocked iter => cases ha
  | resetFromStateLocked state => cases ha
  | resetFixedLocked items => cases ha

theorem exec_highestShown (acts : List Action) :
    ∀ g g1 : GridView, (∀ a, a ∈ acts → a.isReset = false) →
      g.exec acts = some g1 → g.highestShown ≤ g1.highestShown := by
  induction acts with
  | nil => intro g g1 _ h; cases h; exact le_refl _
  | cons a as ih =>
    intro g g1 hacts h
    simp only [GridView.exec] at h
    cases hs : g.step a with
    | none => rw [hs] at h; cases h
    | some g2 =>
      rw [hs] at h
      exact le_trans (step_highestShown g g2 a (hacts a (List.mem_cons_self a as)) hs)
        (ih g2 g1 (fun b hb => hacts b (List.mem_cons_of_mem a hb)) h)

theorem noteShown_highestShown (g : GridView) (itemIdx : Int) :
    (g.noteShown itemIdx).highestShown = max g.highestShown itemIdx := by
  unfold GridView.noteShown
  split
  · simp; omega
  · simp; omega

/-- As the claim C11 states it, an index at or beyond `len(items)` would leave
`highestShown` unchanged. On a view of 10 records with `highestShown = 3`,
`doUpdateItemCard(17, card)` leaves `highestShown = 17`. -/
theorem highestShown_claim_counterexample :
    ((newGridView ⟨sample21.take 10, none, 3, true⟩).items.length : Int) ≤ 17 ∧
    (newGridView ⟨sample21.take 10, none, 3, true⟩).highestShown = 3 ∧
    ((newGridView ⟨sample21.take 10, none, 3, true⟩).doUpdateItemCard 17
        ⟨-1, GridViewItemModel.zero⟩).map (fun r => (r.1.highestShown, r.2))
      = some (17, ⟨17, GridViewItemModel.zero⟩) := by
  refine ⟨by decide, rfl, by decide⟩

/-- **C11 (amended).** `doUpdateItemCard(index, card)` raises `highestShown` to
`max(previous highestShown, index)` for every index on which it returns, in
range or not: its first statement does so before the range guard is reached.
Consequently `highestShown` is non-decreasing along every schedule without a
reset. -/
theorem doUpdateItemCard_highestShown (g g1 : GridView) (itemIdx : Int)
    (card card1 : GridViewItem) (h : g.doUpdateItemCard itemIdx card = some (g1, card1)) :
    g1.highestShown = max g.highestShown itemIdx ∧ g.highestShown ≤ g1.highestShown ∧
    ∀ acts g2, (∀ a, a ∈ acts → a.isReset = false) → g1.exec acts = some g2 →
      g1.highestShown ≤ g2.highestShown := by
  have hmax : g1.highestShown = max g.highestShown itemIdx := by
    unfold GridView.doUpdateItemCard at h
    dsimp only at h
    split at h
    · cases h
    · split at h
      · cases h; exact noteShown_highestShown g itemIdx
      · cases h
        simp only [GridView.fetchIfNearEnd]
        split
        · rw [checkFetchMoreItems_highestShown]; exact noteShown_highestShown g itemIdx
        · exact noteShown_highestShown g itemIdx
  refine ⟨hmax, by rw [hmax]; exact le_max_left _ _, ?_⟩
  intro acts g2 hacts hrun
  exact exec_highestShown acts g1 g2 hacts hrun

/-- The statement of `doUpdateItemCard_highestShown` on a view of 10 records with
`highestShown = 3`, for the out-of-range index 17. -/
theorem doUpdateItemCard_highestShown_witness :
    ∃ g1 card1,
      (newGridView ⟨sample21.take 10, none, 3, true⟩).doUpdateItemCard 17
        ⟨-1, GridViewItemModel.zero⟩ = some (g1, card1) ∧
      g1.highestShown = max (newGridView ⟨sample21.take 10, none, 3, true⟩).highestShown 17 ∧
      (newGridView ⟨sample21.take 10, none, 3, true⟩).highestShown ≤ g1.highestShown := by
  obtain ⟨⟨g1, card1⟩, h1⟩ : ∃ r,
      (newGridView ⟨sample21.take 10, none, 3, true⟩).doUpdateItemCard 17
        ⟨-1, GridViewItemModel.zero⟩ = some r := ⟨_, rfl⟩
  have h := doUpdateItemCard_highestShown _ g1 17 _ card1 h1
  exact ⟨g1, card1, h1, h.1, h.2.1⟩

/-! ## Column count -/

/-- **C13 (what the code does).** On the layout fields `newGridView()` leaves,
before any `Resize`, `numCols()` takes `numColsCached = 0` for a valid cache
entry (the sentinel for an empty cache is `-1`, which only `Resize` stores):
it returns 0 and changes nothing, whatever the item width, the padding and the
float arithmetic. -/
theorem numCols_before_first_Resize (itemWidth pad : ℚ) (floatCols : ℚ → ℚ → ℚ → Int) :
    ((newGridViewLayout itemWidth).numCols pad floatCols).1 = 0 ∧
    ((newGridViewLayout itemWidth).numCols pad floatCols).2 = newGridViewLayout itemWidth := by
  simp [GridViewLayout.numCols, newGridViewLayout]

/-- After a `Resize`, `numCols()` computes the count from the new width and
stores it in the cache: 1 when the width does not exceed the item width, else
the value of the float expression. -/
theorem numCols_after_Resize (g : GridViewLayout) (width pad : ℚ)
    (floatCols : ℚ → ℚ → ℚ → Int) :
    ((g.Resize width).numCols pad floatCols).1 =
      (if width > g.itemWidth then floatCols width pad g.itemWidth else 1) ∧
    ((g.Resize width).numCols pad floatCols).2.numColsCached =
      ((g.Resize width).numCols pad floatCols).1 ∧
    ((g.Resize width).numCols pad floatCols).2.width = width := by
  simp [GridViewLayout.numCols, GridViewLayout.Resize]

/-! ## How much one `checkFetchMoreItems` fetches -/

/-- The inner test failing (`done` set, or `n` has reached `count`): back to the
outer test. -/
theorem fetch_inner_exit (g : GridView) (i : Nat) (count n : Int)
    (hf : g.fetches i = some ⟨count, false, FetchPC.innerCheck n⟩)
    (hc : g.done = true ∨ count ≤ n) :
    ∃ g1, g.runFetch i 1 = some g1 ∧ g1.toGridViewState = g.toGridViewState ∧
      g1.fetchCancel = g.fetchCancel ∧
      g1.fetches i = some ⟨count, false, FetchPC.outerCheck⟩ ∧
      g1.nextNLog = g.nextNLog := by
  have hcond : (!g.done && decide (n < count)) = false := by
    rcases hc with h | h
    · simp [h]
    · simp [not_lt.mpr h]
  simp [runFetch_succ, runFetch_zero, GridView.fetchStep, GridView.setFetch, hf, hcond]

/-- The outer test failing (`done` set, or the view is not near the end): the
goroutine calls `cancelFetch` and returns. -/
theorem fetch_outer_exit (g : GridView) (i : Nat) (count : Int)
    (hf : g.fetches i = some ⟨count, false, FetchPC.outerCheck⟩)
    (hfc : g.fetchCancel = some i)
    (hc : g.done = true ∨ g.highestShown < g.lenItems - 10) :
    ∃ g1, g.runFetch i 2 = some g1 ∧ g1.toGridViewState = g.toGridViewState ∧
      g1.fetchCancel = none ∧ g1.fetches i = some ⟨count, true, FetchPC.exited⟩ ∧
      g1.nextNLog = g.nextNLog := by
  have hcond : ¬ (g.done = false ∧ g.lenItems ≤ g.highestShown + 10) := by
    rintro ⟨h1, h2⟩
    rcases hc with h | h
    · rw [h] at h1; cases h1
    · omega
  simp [runFetch_succ, runFetch_zero, GridView.fetchStep, GridView.setFetch,
    GridView.cancelFetch, hf, hfc, hcond]

/-- The inner loop of a fetch running alone on an iterator that does not panic:
it comes back to the outer test with `done` set or with at least `count - n`
more items. -/
theorem fetch_inner (it : GridViewIterator) (htot : it.Total) (count : Int) (i : Nat) :
    ∀ (m : Nat) (st : it.State) (g : GridView) (n : Int),
      (count - n).toNat ≤ m → g.iter = some { it with st := st } →
      g.fetches i = some ⟨count, false, FetchPC.innerCheck n⟩ →
      g.fetchCancel = some i → g.done = false →
      ∃ k g1 st1, g.runFetch i k = some g1 ∧
        g1.fetches i = some ⟨count, false, FetchPC.outerCheck⟩ ∧
        g1.fetchCancel = some i ∧ g1.iter = some { it with st := st1 } ∧
        g1.highestShown = g.highestShown ∧ g.items <+: g1.items ∧
        (g1.done = true ∨ (g.items.length : Int) + (count - n) ≤ g1.items.length) := by
  intro m
  induction m with
  | zero =>
    intro st g n hm hit hf hfc hd
    have hle : count ≤ n := by omega
    obtain ⟨g1, hrun, hst, hfc1, hfi, _⟩ := fetch_inner_exit g i count n hf (Or.inr hle)
    have hitems : g1.items = g.items := congrArg GridViewState.items hst
    refine ⟨1, g1, st, hrun, hfi, hfc1.trans hfc,
      (congrArg GridViewState.iter hst).trans hit,
      congrArg GridViewState.highestShown hst, by rw [hitems], Or.inr ?_⟩
    rw [hitems]; omega
  | succ m ih =>
    intro st g n hm hit hf hfc hd
    by_cases hlt : n < count
    · obtain ⟨r, hr⟩ := htot st
      have hnext : GridViewIterator.NextN { it with st := st } batchFetchSize
          = some (r.1, { it with st := r.2 }) := by
        simp [GridViewIterator.NextN, hr]
      obtain ⟨g1, hrun, hitems, hdone, hiter, hfc1, hfi, hhs, _⟩ :=
        fetch_round g i count n _ _ _ hf hd hlt hit hnext
      by_cases hshort : (r.1.length : Int) < batchFetchSize
      · have hd1 : g1.done = true := by rw [hdone]; simpa using hshort
        obtain ⟨g2, hrun2, hst2, hfc2, hfi2, _⟩ :=
          fetch_inner_exit g1 i count _ hfi (Or.inl hd1)
        have hitems2 : g2.items = g1.items := congrArg GridViewState.items hst2
        refine ⟨5 + 1, g2, r.2, ?_, hfi2, hfc2.trans (hfc1.trans hfc),
          (congrArg GridViewState.iter hst2).trans hiter,
          (congrArg GridViewState.highestShown hst2).trans hhs, ?_, Or.inl ?_⟩
        · rw [runFetch_add, hrun]; exact hrun2
        · rw [hitems2, hitems]; exact List.prefix_append _ _
        · exact (congrArg GridViewState.done hst2).trans hd1
      · have hd1 : g1.done = false := by rw [hdone]; simpa using hshort
        have hlen : (batchFetchSize : Int) ≤ r.1.length := not_lt.mp hshort
        have h6 : batchFetchSize = 6 := rfl
        obtain ⟨k, g2, st2, hrun2, hfi2, hfc2, hiter2, hhs2, hpre2, hgrow2⟩ :=
          ih r.2 g1 (n + r.1.length) (by omega) hiter hfi (hfc1.trans hfc) hd1
        refine ⟨5 + k, g2, st2, ?_, hfi2, hfc2, hiter2, hhs2.trans hhs, ?_, ?_⟩
        · rw [runFetch_add, hrun]; exact hrun2
        · exact (hitems ▸ List.prefix_append g.items r.1).trans hpre2
        · rcases hgrow2 with h | h
          · exact Or.inl h
          · right
            rw [hitems, List.length_append] at h
            push_cast at h
            omega
    · have hle : count ≤ n := not_lt.mp hlt
      obtain ⟨g1, hrun, hst, hfc1, hfi, _⟩ := fetch_inner_exit g i count n hf (Or.inr hle)
      have hitems : g1.items = g.items := congrArg GridViewState.items hst
      refine ⟨1, g1, st, hrun, hfi, hfc1.trans hfc,
        (congrArg GridViewState.iter hst).trans hit,
        congrArg GridViewState.highestShown hst, by rw [hitems], Or.inr ?_⟩
      rw [hitems]; omega

/-- The whole fetch goroutine running alone, from its outer test, on an iterator
that does not panic: it returns with `fetchCancel` nil; when it started with
`done` false and the view near the end, `done` is set or at least `count`
items were appended; otherwise the store is as it was. -/
theorem fetch_outer (it : GridViewIterator) (htot : it.Total) (count : Int) (hc : 0 < count)
    (i : Nat) :
    ∀ (m : Nat) (st : it.State) (g : GridView),
      (g.highestShown - (g.lenItems - 10) + 1).toNat ≤ m →
      g.iter = some { it with st := st } →
      g.fetches i = some ⟨count, false, FetchPC.outerCheck⟩ → g.fetchCancel = some i →
      ∃ k g1, g.runFetch i k = some g1 ∧
        g1.fetches i = some ⟨count, true, FetchPC.exited⟩ ∧ g1.fetchCancel = none ∧
        g.items <+: g1.items ∧
        (g.done = false → g.highestShown ≥ g.lenItems - 10 →
          g1.done = true ∨ (g.items.length : Int) + count ≤ g1.items.length) ∧
        (g.done = true ∨ g.highestShown < g.lenItems - 10 →
          g1.toGridViewState = g.toGridViewState ∧ g1.nextNLog = g.nextNLog) := by
  intro m
  induction m with
  | zero =>
    intro st g hm hit hf hfc
    have hfar : g.highestShown < g.lenItems - 10 := by omega
    obtain ⟨g1, hrun, hst, hfc1, hfi, hlog⟩ := fetch_outer_exit g i count hf hfc (Or.inr hfar)
    refine ⟨2, g1, hrun, hfi, hfc1, ?_, ?_, fun _ => ⟨hst, hlog⟩⟩
    · rw [congrArg GridViewState.items hst]
    · intro _ hnear; omega
  | succ m ih =>
    intro st g hm hit hf hfc
    by_cases hcond : g.done = true ∨ g.highestShown < g.lenItems - 10
    · obtain ⟨g1, hrun, hst, hfc1, hfi, hlog⟩ := fetch_outer_exit g i count hf hfc hcond
      refine ⟨2, g1, hrun, hfi, hfc1, ?_, ?_, fun _ => ⟨hst, hlog⟩⟩
      · rw [congrArg GridViewState.items hst]
      · intro hd hnear
        rcases hcond with h | h
        · rw [h] at hd; cases hd
        · omega
    · have hd : g.done = false := by
        cases h : g.done with
        | false => rfl
        | true => exact absurd (Or.inl h) hcond
      have hnear : g.highestShown ≥ g.lenItems - 10 := by
        by_contra h
        exact hcond (Or.inr (not_le.mp h))
      obtain ⟨g1, hrun1, hst1, hfc1, hfi1, _⟩ := fetch_enter g i count hf hd hnear
      have hitems1 : g1.items = g.items := congrArg GridViewState.items hst1
      obtain ⟨k2, g2, st2, hrun2, hfi2, hfc2, hiter2, hhs2, hpre2, hgrow2⟩ :=
        fetch_inner it htot count i (count - 0).toNat st g1 0 (le_refl _)
          ((congrArg GridViewState.iter hst1).trans hit) hfi1 (hfc1.trans hfc)
          ((congrArg GridViewState.done hst1).trans hd)
      have hpre12 : g.items <+: g2.items := hitems1 ▸ hpre2
      rw [hitems1] at hgrow2
      by_cases hd2 : g2.done = true
      · obtain ⟨g3, hrun3, hst3, hfc3, hfi3, _⟩ :=
          fetch_outer_exit g2 i count hfi2 hfc2 (Or.inl hd2)
        have hitems3 : g3.items = g2.items := congrArg GridViewState.items hst3
        refine ⟨1 + (k2 + 2), g3, ?_, hfi3, hfc3, hitems3 ▸ hpre12, ?_, ?_⟩
        · rw [runFetch_add, hrun1]
          simp only [Option.some_bind]
          rw [runFetch_add, hrun2]; exact hrun3
        · intro _ _
          exact Or.inl ((congrArg GridViewState.done hst3).trans hd2)
        · intro h; exact absurd h hcond
      · have hgrow : (g.items.length : Int) + count ≤ g2.items.length := by
          rcases hgrow2 with h | h
          · exact absurd h hd2
          · omega
        have hm2 : (g2.highestShown - (g2.lenItems - 10) + 1).toNat ≤ m := by
          have e1 : g2.highestShown = g.highestShown :=
            hhs2.trans (congrArg GridViewState.highestShown hst1)
          simp only [GridView.lenItems] at hm hnear ⊢
          omega
        obtain ⟨k3, g3, hrun3, hfi3, hfc3, hpre3, _, _⟩ := ih st2 g2 hm2 hiter2 hfi2 hfc2
        refine ⟨1 + (k2 + k3), g3, ?_, hfi3, hfc3, hpre12.trans hpre3, ?_, ?_⟩
        · rw [runFetch_add, hrun1]
          simp only [Option.some_bind]
          rw [runFetch_add, hrun2]; exact hrun3
        · intro _ _
          right
          have := hpre3.length_le
          omega
        · intro h; exact absurd h hcond

/-- **C12 (what the code does).** On a view of 21 records with
`highestShown = 0`, `done` false, an iterator with 21 more records and no
active fetch, the goroutine `checkFetchMoreItems(20)` starts fails its outer
test (`0 >= 21 - 10` is false) and returns: no `NextN` call, `items` keeps its
21 records and `done` stays false, where the doc comment of the function says
it fetches at least 20 more items. The same happens to the call that
`doUpdateItemCard(17)` makes when the critical section of `ResetFromState` with
that store runs between its first and its last statement. -/
theorem checkFetchMoreItems_fetches_nothing :
    (newGridView ⟨sample21, some (sliceIterator sample21), 0, false⟩).done = false ∧
    (newGridView ⟨sample21, some (sliceIterator sample21), 0, false⟩).fetchCancel
      = none ∧
    (((newGridView ⟨sample21, some (sliceIterator sample21), 0,
        false⟩).checkFetchMoreItems 20).runFetch 0 10).map
        (fun g => (g.items.length, g.done, g.fetchCancel, g.fetches 0, g.nextNLog))
      = some (21, false, none, some ⟨20, true, FetchPC.exited⟩, []) ∧
    ((NewFixedGridView []).exec
        [Action.showRow 17,
          Action.resetFromStateLocked ⟨sample21, some (sliceIterator sample21), 0, false⟩,
          Action.nearEnd 17, Action.fetchStep 0, Action.fetchStep 0]).map
        (fun g => (g.items.length, g.done, g.fetchCancel, g.fetches 0, g.nextNLog))
      = some (21, false, none, some ⟨20, true, FetchPC.exited⟩, []) := by
  refine ⟨rfl, rfl, by rfl, by rfl⟩

theorem sliceIterator_total (xs : List GridViewItemModel) : (sliceIterator xs).Total := by
  intro st
  exact ⟨(List.take 6 st, List.drop 6 st), rfl⟩

/-- What one fetch does: for `count > 0` and a state with `done` false, no active
fetch and an iterator that does not panic, the goroutine `checkFetchMoreItems`
starts, running alone, returns after finitely many steps with `fetchCancel` nil
and `items` extended at its end. When the view is near the end at the start
(`highestShown >= len(items) - 10`, as at every call site), `done` is then set
or `len(items)` has grown by at least `count`; when it is not, the goroutine
fails its outer test at once: nothing is fetched and `done` stays false. -/
theorem checkFetchMoreItems_fetches_count (g : GridView) (count : Int)
    (it : GridViewIterator) (hc : 0 < count) (hd : g.done = false)
    (hfc : g.fetchCancel = none) (hit : g.iter = some it) (htot : it.Total) :
    ∃ k, ∀ fuel, k ≤ fuel →
      ∃ g1, (g.checkFetchMoreItems count).runFetch g.nextFetch fuel = some g1 ∧
        g1.fetches g.nextFetch = some ⟨count, true, FetchPC.exited⟩ ∧
        g1.fetchCancel = none ∧ g.items <+: g1.items ∧
        (g.highestShown ≥ g.lenItems - 10 →
          g1.done = true ∨ (g.items.length : Int) + count ≤ g1.items.length) ∧
        (g.highestShown < g.lenItems - 10 →
          g1.items = g.items ∧ g1.done = false ∧ g1.nextNLog = g.nextNLog) := by
  obtain ⟨hst, hfc0, hfi0, _, _, hlog0⟩ := checkFetchMoreItems_start g count it hd hfc hit
  have hitems0 : (g.checkFetchMoreItems count).items = g.items :=
    congrArg GridViewState.items hst
  have hhs0 : (g.checkFetchMoreItems count).highestShown = g.highestShown :=
    congrArg GridViewState.highestShown hst
  have hd0 : (g.checkFetchMoreItems count).done = false :=
    (congrArg GridViewState.done hst).trans hd
  have hlen0 : (g.checkFetchMoreItems count).lenItems = g.lenItems := by
    simp [GridView.lenItems, hitems0]
  obtain ⟨k, g1, hrun, hfi, hfc1, hpre, hnear, hfar⟩ :=
    fetch_outer it htot count hc g.nextFetch _ it.st (g.checkFetchMoreItems count) (le_refl _)
      ((congrArg GridViewState.iter hst).trans hit) hfi0 hfc0
  refine ⟨k, ?_⟩
  intro fuel hfuel
  obtain ⟨e, rfl⟩ := Nat.exists_eq_add_of_le hfuel
  refine ⟨g1, ?_, hfi, hfc1, hitems0 ▸ hpre, ?_, ?_⟩
  · rw [runFetch_add, hrun]
    exact runFetch_exited g.nextFetch count true e g1 hfi
  · intro h
    have := hnear hd0 (by rw [hhs0, hlen0]; exact h)
    rw [hitems0] at this
    exact this
  · intro h
    obtain ⟨h1, h2⟩ := hfar (Or.inr (by rw [hhs0, hlen0]; exact h))
    exact ⟨(congrArg GridViewState.items h1).trans hitems0,
      (congrArg GridViewState.done h1).trans hd0, h2.trans hlog0⟩

/-- The statement of `checkFetchMoreItems_fetches_count` for `count = 12` on the
empty streaming store over 21 records, together with the run itself: two
batches, 12 items, `done` still false. -/
theorem checkFetchMoreItems_fetches_count_witness :
    ((0 : Int) < 12 ∧ (sliceIterator sample21).Total) ∧
    (∃ k, ∀ fuel, k ≤ fuel →
      ∃ g1, ((streamingStore (some (sliceIterator sample21))).checkFetchMoreItems 12).runFetch
            (streamingStore (some (sliceIterator sample21))).nextFetch fuel = some g1 ∧
        g1.fetches (streamingStore (some (sliceIterator sample21))).nextFetch
          = some ⟨12, true, FetchPC.exited⟩ ∧
        g1.fetchCancel = none ∧
        (streamingStore (some (sliceIterator sample21))).items <+: g1.items ∧
        ((streamingStore (some (sliceIterator sample21))).highestShown ≥
            (streamingStore (some (sliceIterator sample21))).lenItems - 10 →
          g1.done = true ∨
            ((streamingStore (some (sliceIterator sample21))).items.length : Int) + 12
              ≤ g1.items.length) ∧
        ((streamingStore (some (sliceIterator sample21))).highestShown <
            (streamingStore (some (sliceIterator sample21))).lenItems - 10 →
          g1.items = (streamingStore (some (sliceIterator sample21))).items ∧
            g1.done = false ∧
            g1.nextNLog = (streamingStore (some (sliceIterator sample21))).nextNLog)) ∧
    (((streamingStore (some (sliceIterator sample21))).checkFetchMoreItems 12).runFetch 0 20).map
        (fun g => (g.items.length, g.done, g.fetchCancel, g.nextNLog.map List.length))
      = some (12, false, none, [6, 6]) :=
  ⟨⟨by decide, sliceIterator_total sample21⟩,
    checkFetchMoreItems_fetches_count (streamingStore (some (sliceIterator sample21))) 12
      (sliceIterator sample21) (by decide) rfl rfl rfl (sliceIterator_total sample21),
    by rfl⟩

/-! ## Refresh -/

/-- With `done` set or a fetch active, `doUpdateItemCard` changes the store by
its first statement only. -/
theorem doUpdateItemCard_idle (g g1 : GridView) (itemIdx : Int) (card card1 : GridViewItem)
    (hidle : g.done = true ∨ g.fetchCancel.isSome = true)
    (h : g.doUpdateItemCard itemIdx card = some (g1, card1)) : g1 = g.noteShown itemIdx := by
  obtain ⟨_, hd, _, hfc, _⟩ := noteShown_frame g itemIdx
  have hidle1 : (g.noteShown itemIdx).done = true ∨
      (g.noteShown itemIdx).fetchCancel.isSome = true := by
    rw [hd, hfc]; exact hidle
  unfold GridView.doUpdateItemCard at h
  dsimp only at h
  split at h
  · cases h
  · split at h
    · cases h; rfl
    · cases h
      simp only [GridView.fetchIfNearEnd]
      split
      · exact checkFetchMoreItems_idle _ 20 hidle1
      · rfl

/-- The store a row update leaves is reached by its first statement, followed
or not by its last. -/
theorem doUpdateItemCard_reachable (g g1 : GridView) (itemIdx : Int)
    (card card1 : GridViewItem) (hg : Reachable g)
    (h : g.doUpdateItemCard itemIdx card = some (g1, card1)) : Reachable g1 := by
  have h1 : Reachable (g.noteShown itemIdx) := Reachable.step (Action.showRow itemIdx) hg rfl
  unfold GridView.doUpdateItemCard at h
  dsimp only at h
  split at h
  · cases h
  · split at h
    · cases h; exact h1
    · cases h
      exact Reachable.step (Action.nearEnd itemIdx) h1 rfl

theorem refresh_reachable (rows : List (Int × GridViewItem)) :
    ∀ g g1 : GridView, Reachable g → g.Refresh rows = some g1 → Reachable g1 := by
  induction rows with
  | nil => intro g g1 hg h; cases h; exact hg
  | cons r rows ih =>
    intro g g1 hg h
    obtain ⟨itemIdx, card⟩ := r
    simp only [GridView.Refresh] at h
    cases hu : g.doUpdateItemCard itemIdx card with
    | none => rw [hu] at h; cases h
    | some p =>
      obtain ⟨g2, card2⟩ := p
      rw [hu] at h
      exact ih g2 g1 (doUpdateItemCard_reachable g g2 itemIdx card card2 hg hu) h

/-- Every store the complete operations return is reachable. -/
theorem operations_reachable (g g1 : GridView) (rows : List (Int × GridViewItem))
    (hg : Reachable g) :
    (∀ state, NewGridViewFromState state rows = some g1 → Reachable g1) ∧
    (∀ iter, g.Reset iter rows = some g1 → Reachable g1) ∧
    (∀ state, g.ResetFromState state rows = some g1 → Reachable g1) ∧
    (∀ items, g.ResetFixed items rows = some g1 → Reachable g1) := by
  refine ⟨?_, ?_, ?_, ?_⟩
  · intro state h
    exact refresh_reachable rows _ g1 (Reachable.fromState state) h
  · intro iter h
    exact refresh_reachable rows _ g1
      (Reachable.step (Action.checkFetchMoreItems 36)
        (Reachable.step (Action.resetLocked iter) hg rfl) rfl) h
  · intro state h
    exact refresh_reachable rows _ g1
      (Reachable.step (Action.resetFromStateLocked state) hg rfl) h
  · intro items h
    exact refresh_reachable rows _ g1 (Reachable.step (Action.resetFixedLocked items) hg rfl) h

/-- With `done` set or a fetch active, the row updates of a refresh change
nothing in the store but `highestShown`, which they raise to the highest row
index they show. -/
theorem refresh_idle (rows : List (Int × GridViewItem)) :
    ∀ g g1 : GridView, (g.done = true ∨ g.fetchCancel.isSome = true) →
      g.Refresh rows = some g1 →
      g1.items = g.items ∧ g1.done = g.done ∧ g1.iter = g.iter ∧
      g1.fetchCancel = g.fetchCancel ∧ g1.fetches = g.fetches ∧
      g1.nextFetch = g.nextFetch ∧ g1.nextNLog = g.nextNLog ∧
      g.highestShown ≤ g1.highestShown ∧ ∀ r, r ∈ rows → r.1 ≤ g1.highestShown := by
  induction rows with
  | nil =>
    intro g g1 _ h
    cases h
    exact ⟨rfl, rfl, rfl, rfl, rfl, rfl, rfl, le_refl _, by simp⟩
  | cons r rows ih =>
    intro g g1 hidle h
    obtain ⟨itemIdx, card⟩ := r
    simp only [GridView.Refresh] at h
    cases hu : g.doUpdateItemCard itemIdx card with
    | none => rw [hu] at h; cases h
    | some p =>
      obtain ⟨g2, card2⟩ := p
      rw [hu] at h
      have e := doUpdateItemCard_idle g g2 itemIdx card card2 hidle hu
      subst e
      obtain ⟨f1, f2, f3, f4, f5, f6, f7, f8, f9⟩ := noteShown_frame g itemIdx
      obtain ⟨i1, i2, i3, i4, i5, i6, i7, i8, i9⟩ :=
        ih (g.noteShown itemIdx) g1 (by rw [f2, f4]; exact hidle) h
      refine ⟨i1.trans f1, i2.trans f2, i3.trans f3, i4.trans f4, i5.trans f5, i6.trans f6,
        i7.trans f7, le_trans f9 i8, ?_⟩
      intro r hr
      rcases List.mem_cons.mp hr with e | hmem
      · subst e; exact le_trans f8 i8
      · exact i9 r hmem

/-! ## Reset operations -/

/-- As the claim C6 states it, no fetch would be active after `Reset(it)`, and
`highestShown` would be 0 after `Clear()` and after `ResetFixed(xs)`. On a view
of no records whose `highestShown` is 5: `Reset` with an iterator has started
goroutine 0 for 36 items and holds its cancel function; `Clear` leaves
`highestShown = 5`; and `ResetFixed([A, B, C])`, whose refresh shows rows 0 and
1, returns with `highestShown = 1`. -/
theorem reset_claim_counterexample :
    ((newGridView { items := [], iter := none, highestShown := 5, done := true }).Reset
        (some (sliceIterator sample21)) []).map (fun g => (g.fetchCancel, g.fetches 0))
      = some (some 0, some ⟨36, false, FetchPC.outerCheck⟩) ∧
    ((newGridView { items := [], iter := none, highestShown := 5, done := true }).Clear).highestShown
      = 5 ∧
    ((newGridView { items := [], iter := none, highestShown := 5, done := true }).ResetFixed
        (mkItems ["A", "B", "C"])
        [(0, ⟨-1, GridViewItemModel.zero⟩), (1, ⟨-1, GridViewItemModel.zero⟩)]).map
        (fun g => (g.items, g.done, g.highestShown, g.fetchCancel))
      = some (mkItems ["A", "B", "C"], true, 1, none) := by
  refine ⟨by rfl, rfl, by decide⟩

/-- **C6 (amended).** From every prior state, with or without a fetch in flight,
each reset replaces the store inside its critical section: when `ResetFixed(xs)`
unlocks, `items = xs`, `done` is set, there is no iterator, `highestShown = 0`
and no fetch is active; when `Reset(it)` unlocks, there are no items, `done` is
false, `iter = it`, `highestShown = 0` and no fetch is active; `Clear()` returns
with no items, `done` set and no active fetch; when `ResetFromState(st)`
unlocks the store is `st` and no fetch is active; each closes the context of
the fetch that was active. The `checkFetchMoreItems(36)` that `Reset` calls
next, on the state its critical section left, starts one fetch goroutine for a
non-nil `it`. The row updates of the refresh that ends `ResetFixed` and
`Reset`, run on the state left before them, change nothing but `highestShown`,
raised to the highest row index shown. -/
theorem reset_replaces_state (g : GridView) :
    (∀ xs, (g.resetFixedLocked xs).items = xs ∧ (g.resetFixedLocked xs).done = true ∧
        (g.resetFixedLocked xs).iter.isNone = true ∧ (g.resetFixedLocked xs).highestShown = 0 ∧
        (g.resetFixedLocked xs).fetchCancel = none) ∧
    (∀ it, (g.resetLocked it).items = [] ∧ (g.resetLocked it).done = false ∧
        (g.resetLocked it).iter = it ∧
        (g.resetLocked it).highestShown = 0 ∧ (g.resetLocked it).fetchCancel = none ∧
        (g.resetLocked it).nextFetch = g.nextFetch) ∧
    (∀ it, ((g.resetLocked (some it)).checkFetchMoreItems 36).items = [] ∧
        ((g.resetLocked (some it)).checkFetchMoreItems 36).done = false ∧
        ((g.resetLocked (some it)).checkFetchMoreItems 36).iter = some it ∧
        ((g.resetLocked (some it)).checkFetchMoreItems 36).highestShown = 0 ∧
        ((g.resetLocked (some it)).checkFetchMoreItems 36).fetchCancel = some g.nextFetch ∧
        ((g.resetLocked (some it)).checkFetchMoreItems 36).fetches g.nextFetch
          = some ⟨36, false, FetchPC.outerCheck⟩) ∧
    ((g.Clear).items = [] ∧ (g.Clear).done = true ∧ (g.Clear).fetchCancel = none) ∧
    (∀ st, (g.resetFromStateLocked st).toGridViewState = st ∧
        (g.resetFromStateLocked st).fetchCancel = none) ∧
    (∀ i l, g.fetchCancel = some i → g.fetches i = some l →
        ∀ g1, (g1 = g.Clear ∨ (∃ xs, g1 = g.resetFixedLocked xs) ∨
            (∃ it, g1 = g.resetLocked it) ∨ (∃ st, g1 = g.resetFromStateLocked st)) →
          g1.fetches i = some { l with ctxDone := true }) ∧
    (∀ xs rows g1, g.ResetFixed xs rows = some g1 →
        g1.items = xs ∧ g1.done = true ∧ g1.iter.isNone = true ∧ g1.fetchCancel = none ∧
        0 ≤ g1.highestShown ∧ ∀ r, r ∈ rows → r.1 ≤ g1.highestShown) ∧
    (∀ it rows g1, g.Reset (some it) rows = some g1 →
        g1.items = ((g.resetLocked (some it)).checkFetchMoreItems 36).items ∧
        g1.done = ((g.resetLocked (some it)).checkFetchMoreItems 36).done ∧
        g1.iter = ((g.resetLocked (some it)).checkFetchMoreItems 36).iter ∧
        g1.fetchCancel = ((g.resetLocked (some it)).checkFetchMoreItems 36).fetchCancel ∧
        g1.fetches = ((g.resetLocked (some it)).checkFetchMoreItems 36).fetches ∧
        0 ≤ g1.highestShown ∧ ∀ r, r ∈ rows → r.1 ≤ g1.highestShown) := by
  have hc := cancelFetch_fetchCancel g
  have hn : g.cancelFetch.nextFetch = g.nextFetch := by
    unfold GridView.cancelFetch
    cases h : g.fetchCancel <;> simp
  have hstart : ∀ it, ((g.resetLocked (some it)).checkFetchMoreItems 36).items = [] ∧
      ((g.resetLocked (some it)).checkFetchMoreItems 36).done = false ∧
      ((g.resetLocked (some it)).checkFetchMoreItems 36).iter = some it ∧
      ((g.resetLocked (some it)).checkFetchMoreItems 36).highestShown = 0 ∧
      ((g.resetLocked (some it)).checkFetchMoreItems 36).fetchCancel = some g.nextFetch ∧
      ((g.resetLocked (some it)).checkFetchMoreItems 36).fetches g.nextFetch
        = some ⟨36, false, FetchPC.outerCheck⟩ := by
    intro it
    simp [GridView.resetLocked, GridView.checkFetchMoreItems, hc, hn]
  refine ⟨?_, ?_, hstart, ?_, ?_, ?_, ?_, ?_⟩
  · intro xs
    simp [GridView.resetFixedLocked, hc]
  · intro it
    simp [GridView.resetLocked, hc, hn]
  · simp [GridView.Clear, hc]
  · intro st
    simp [GridView.resetFromStateLocked, hc]
  · intro i l hi hl g1 hg1
    have hcf : g.cancelFetch.fetches i = some { l with ctxDone := true } := by
      simp [GridView.cancelFetch, hi, hl]
    rcases hg1 with h | ⟨xs, h⟩ | ⟨it, h⟩ | ⟨st, h⟩ <;> subst h <;>
      simpa [GridView.Clear, GridView.resetFixedLocked, GridView.resetLocked,
        GridView.resetFromStateLocked] using hcf
  · intro xs rows g1 h
    obtain ⟨i1, i2, i3, i4, _, _, _, i8, i9⟩ :=
      refresh_idle rows (g.resetFixedLocked xs) g1 (Or.inl rfl) h
    refine ⟨i1, i2, ?_, i4.trans ?_, ?_, i9⟩
    · rw [i3]; rfl
    · simp [GridView.resetFixedLocked, hc]
    · exact i8
  · intro it rows g1 h
    obtain ⟨_, _, _, h4, h5, _⟩ := hstart it
    obtain ⟨i1, i2, i3, i4, i5, _, _, i8, i9⟩ :=
      refresh_idle rows ((g.resetLocked (some it)).checkFetchMoreItems 36) g1
        (Or.inr (by rw [(hstart it).2.2.2.2.1]; rfl)) h
    refine ⟨i1, i2, i3, i4, i5, ?_, i9⟩
    rw [← (hstart it).2.2.2.1]; exact i8

/-! ## Fetching a short stream to its end -/

/-- For an iterator whose stream holds the records `xs`, fewer than `count` of
them, and any store with no items, `done` false, `highestShown = 0` and no
active fetch: when the goroutine that `checkFetchMoreItems(count)` starts is
the only one to take steps, it returns after finitely many of them, and then
`items` is exactly `xs`, `done` is set and `fetchCancel` is nil. -/
theorem fetch_to_exhaustion (g : GridView) (it : GridViewIterator)
    (xs : List GridViewItemModel) (count : Int) (hs : it.Streams xs)
    (hlt : (xs.length : Int) < count) (hitems : g.items = []) (hd : g.done = false)
    (hhs : g.highestShown = 0) (hfc : g.fetchCancel = none) (hit : g.iter = some it) :
    ∃ k, ∀ fuel, k ≤ fuel →
      ∃ g1, (g.checkFetchMoreItems count).runFetch g.nextFetch fuel = some g1 ∧
        g1.items = xs ∧ g1.done = true ∧ g1.fetchCancel = none ∧
        g1.fetches g.nextFetch = some ⟨count, true, FetchPC.exited⟩ := by
  obtain ⟨reach, rest, hreach0, hrest0, hrest⟩ := hs
  obtain ⟨hst, hfc0, hfi0, _, _, _⟩ := checkFetchMoreItems_start g count it hd hfc hit
  have hitems0 : (g.checkFetchMoreItems count).items = [] :=
    (congrArg GridViewState.items hst).trans hitems
  have hd0 : (g.checkFetchMoreItems count).done = false :=
    (congrArg GridViewState.done hst).trans hd
  have hnear : (g.checkFetchMoreItems count).highestShown
      ≥ (g.checkFetchMoreItems count).lenItems - 10 := by
    have e1 : (g.checkFetchMoreItems count).highestShown = 0 :=
      (congrArg GridViewState.highestShown hst).trans hhs
    rw [e1]
    simp [GridView.lenItems, hitems0]
  obtain ⟨g1, hrun1, hst1, hfc1, hfi1, _⟩ :=
    fetch_enter (g.checkFetchMoreItems count) g.nextFetch count hfi0 hd0 hnear
  have hit1 : g1.iter = some { it with st := it.st } :=
    (congrArg GridViewState.iter hst1).trans ((congrArg GridViewState.iter hst).trans hit)
  have hd1 : g1.done = false := (congrArg GridViewState.done hst1).trans hd0
  have hitems1 : g1.items = [] := (congrArg GridViewState.items hst1).trans hitems0
  obtain ⟨k, g2, hrun2, hitems2, hdone2, hfc2, hfi2, _⟩ :=
    fetch_drains it reach rest hrest count g.nextFetch (rest it.st).length it.st g1 0 hreach0
      (le_refl _) hit1 hfi1 (hfc1.trans hfc0) hd1 (by rw [hrest0]; simpa using hlt)
  refine ⟨1 + k, ?_⟩
  intro fuel hfuel
  obtain ⟨e, rfl⟩ := Nat.exists_eq_add_of_le hfuel
  refine ⟨g2, ?_, ?_, hdone2, hfc2, hfi2⟩
  · rw [runFetch_add, runFetch_add, hrun1]
    simp only [Option.some_bind, hrun2]
    exact runFetch_exited g.nextFetch count true e g2 hfi2
  · rw [hitems2, hitems1, hrest0]; rfl

/-- What `nextNLoop` does on an album iterator over a list: it hands out the
next `k` albums of the list and leaves the iterator past them. -/
theorem nextNLoop_listAlbums (albums : List Album) (k : Nat) :
    ∀ (c : Nat) (results : List Album),
      (BatchingIterator.nextNLoop k ⟨fun j => albums[j]?, c⟩ results).1
        = results ++ (albums.drop c).take k ∧
      (BatchingIterator.nextNLoop k ⟨fun j => albums[j]?, c⟩ results).2.albums
        = (fun j => albums[j]?) ∧
      albums.drop (BatchingIterator.nextNLoop k ⟨fun j => albums[j]?, c⟩ results).2.calls
        = albums.drop (c + k) := by
  induction k with
  | zero => intro c results; simp [BatchingIterator.nextNLoop]
  | succ k ih =>
    intro c results
    cases hy : albums[c]? with
    | none =>
      have hlen : albums.length ≤ c := List.getElem?_eq_none_iff.mp hy
      have hdrop : albums.drop c = [] := List.drop_eq_nil_of_le hlen
      simp [BatchingIterator.nextNLoop, AlbumIterator.Next, hy, hdrop]
      rw [List.drop_eq_nil_of_le (by omega), List.drop_eq_nil_of_le (by omega)]
    | some a =>
      have hlt : c < albums.length := by
        by_contra h
        rw [List.getElem?_eq_none_iff.mpr (not_lt.mp h)] at hy
        cases hy
      have hget : albums[c] = a := by
        rw [List.getElem?_eq_getElem hlt] at hy
        exact Option.some.inj hy
      have hdrop : albums.drop c = a :: albums.drop (c + 1) := by
        rw [← hget]; exact List.drop_eq_getElem_cons hlt
      obtain ⟨h1, h2, h3⟩ := ih (c + 1) (results ++ [a])
      have hloop : BatchingIterator.nextNLoop (k + 1) ⟨fun j => albums[j]?, c⟩ results =
          BatchingIterator.nextNLoop k ⟨fun j => albums[j]?, c + 1⟩ (results ++ [a]) := by
        simp [BatchingIterator.nextNLoop, AlbumIterator.Next, hy]
      rw [hloop]
      refine ⟨?_, h2, ?_⟩
      · rw [h1, hdrop]; simp
      · rw [h3]; congr 1; omega

/-- The iterator `NewGridViewAlbumIterator` builds over a finite list of albums
streams the item models of those albums, when the runtime can allocate a slice
of `batchFetchSize` pointers. -/
theorem albumIterator_streams (capLimit : Nat) (hcap : 6 ≤ capLimit) (albums : List Album) :
    (NewGridViewAlbumIterator capLimit (listAlbumIterator albums)).Streams
      (albums.map albumToItemModel) := by
  refine ⟨fun st => st.iter.iter.albums = (fun j => albums[j]?),
    fun st => (albums.drop st.iter.iter.calls).map albumToItemModel, rfl, ?_, ?_⟩
  · simp [NewGridViewAlbumIterator, NewBatchingIterator, listAlbumIterator]
  · intro st hst
    obtain ⟨⟨⟨f, c⟩⟩⟩ := st
    simp only at hst
    subst hst
    obtain ⟨h1, h2, h3⟩ := nextNLoop_listAlbums albums 6 c []
    have hle : ¬ ((capLimit : Int) < 6) := by omega
    refine ⟨⟨⟨(BatchingIterator.nextNLoop 6 ⟨fun j => albums[j]?, c⟩ []).2⟩⟩, ?_, h2, ?_⟩
    · simp only [NewGridViewAlbumIterator, gridViewAlbumIterator.NextN, BatchingIterator.NextN,
        batchFetchSize, MapSlice]
      have h6 : (6 : Int).toNat = 6 := rfl
      simp only [h6, hle, or_false, show ¬ ((6 : Int) < 0) by decide, if_false, h1]
      simp [List.map_take]
    · simp only
      rw [h3, ← List.map_drop, List.drop_drop]

/-- **C1 (what the code does).** `NewGridView` over `r00..r20`; its goroutine 0
takes two steps and stands before its `NextN` call when `Reset` runs with an
iterator over `[A, B]`. The critical section of `Reset` leaves the store the
claim starts from (no items, `done` false, `highestShown = 0`, no active
fetch) and `checkFetchMoreItems(36)` starts goroutine 1 on it. Goroutine 0,
cancelled, now makes its call on the new iterator, receives `[A, B]`, and
returns at its `select` without appending. Goroutine 1 runs to completion: it
receives an empty batch, sets `done`, and leaves `fetchCancel` nil with
`items` empty; the stream `[A, B]` has 2 < 36 records. -/
theorem stale_fetch_takes_new_batch :
    ((NewGridView (some (sliceIterator sample21))).exec
        [Action.fetchStep 0, Action.fetchStep 0,
          Action.resetLocked (some (sliceIterator (mkItems ["A", "B"])))]).map
        (fun g => (g.items, g.done, g.highestShown, g.fetchCancel))
      = some ([], false, 0, none) ∧
    ((NewGridView (some (sliceIterator sample21))).exec
        ([Action.fetchStep 0, Action.fetchStep 0,
          Action.resetLocked (some (sliceIterator (mkItems ["A", "B"]))),
          Action.checkFetchMoreItems 36, Action.fetchStep 0, Action.fetchStep 0] ++
          List.replicate 12 (Action.fetchStep 1))).map
        (fun g => (g.items, g.done, g.fetchCancel, g.fetches 1, g.nextNLog))
      = some ([], true, none, some ⟨36, true, FetchPC.exited⟩, [mkItems ["A", "B"], []]) := by
  refine ⟨by decide, by rfl⟩

/-- **C3 (what the code does).** `NewGridView` over `r00..r20`; goroutine 0
stands before its `NextN` call when `Reset` runs with an iterator over
`[A, B]`; no reset follows. Goroutine 1 of the new generation pulls the short
batch `[A, B]`, appends it and sets `done`: one `NextN` call is logged. The
cancelled goroutine 0 then makes its call, a further `NextN` call on the new
iterator, after exhaustion and with `done` set: two calls are logged. -/
theorem stale_fetch_calls_NextN_after_exhaustion :
    ((NewGridView (some (sliceIterator sample21))).exec
        ([Action.fetchStep 0, Action.fetchStep 0,
          Action.resetLocked (some (sliceIterator (mkItems ["A", "B"]))),
          Action.checkFetchMoreItems 36] ++ List.replicate 6 (Action.fetchStep 1))).map
        (fun g => (g.items, g.done, g.nextNLog))
      = some (mkItems ["A", "B"], true, [mkItems ["A", "B"]]) ∧
    ((NewGridView (some (sliceIterator sample21))).exec
        ([Action.fetchStep 0, Action.fetchStep 0,
          Action.resetLocked (some (sliceIterator (mkItems ["A", "B"]))),
          Action.checkFetchMoreItems 36] ++ List.replicate 6 (Action.fetchStep 1) ++
          [Action.fetchStep 0])).map
        (fun g => (g.items, g.done, g.nextNLog))
      = some (mkItems ["A", "B"], true, [mkItems ["A", "B"], []]) := by
  refine ⟨by decide, by decide⟩

/-- **C7 (what the code does).** `NewGridView` over `r00..r20`; goroutine 0 has
appended two batches, pulled `r12..r17` and passed its `select` when `Reset`
runs with an iterator over `[A, B]`; no reset follows. Goroutine 1 of the new
generation, never cancelled, pulls `[A, B]` and appends it: `items = [A, B]`.
Goroutine 0 then appends its batch: `items = [A, B, r12, .., r17]`, not the
old (empty) `items` followed by the one batch the fetch loop pulled. -/
theorem stale_append_breaks_accounting :
    ((NewGridView (some (sliceIterator sample21))).exec
        (List.replicate 14 (Action.fetchStep 0) ++
          [Action.resetLocked (some (sliceIterator (mkItems ["A", "B"]))),
            Action.checkFetchMoreItems 36] ++ List.replicate 5 (Action.fetchStep 1))).map
        (fun g => (g.items, g.fetchCancel, g.fetches 1))
      = some (mkItems ["A", "B"], some 1,
          some ⟨36, false, FetchPC.afterAppend 0 (mkItems ["A", "B"])⟩) ∧
    ((NewGridView (some (sliceIterator sample21))).exec
        (List.replicate 14 (Action.fetchStep 0) ++
          [Action.resetLocked (some (sliceIterator (mkItems ["A", "B"]))),
            Action.checkFetchMoreItems 36] ++ List.replicate 5 (Action.fetchStep 1) ++
          [Action.fetchStep 0])).map
        (fun g => (g.items, g.fetchCancel, g.fetches 1))
      = some (mkItems ["A", "B"] ++ (sample21.drop 12).take 6, some 1,
          some ⟨36, false, FetchPC.afterAppend 0 (mkItems ["A", "B"])⟩) := by
  refine ⟨by decide, by decide⟩

end Supersonic
